import Mathlib

/-!
# HelseID samples (Go): resource server, web application and machine-to-machine client

A shallow embedding of the protocol core of the three sample programs:

* `src/web-app/auth/auth.go` and `src/m2m-app/auth/auth.go`: random strings, the PKCE pair and
  the client assertion;
* `src/api/auth/auth.go`: validation of an inbound bearer token, the scope gate and the
  refresh of the cached key set;
* `src/web-app/routes/login/login.go` and `src/web-app/routes/callback/callback.go`: the two
  handlers of the login, as the events they cause and the session they leave.

Go values are embedded as follows. A byte is a `Fin 256`, a byte slice a `List Byte`, a string a
Lean `String`. A function returning `(T, error)` returns a `Result T`, which has a third outcome
for a run-time panic. What the program reads from its environment (the random source, the clock,
the request) is an explicit argument.
-/

namespace HelseId

/-! ## Go values -/

/-- One Go `byte`. -/
abbrev Byte := Fin 256

/-- The Go `error` values that occur: those the repository makes with `errors.New`, and the
errors of the libraries it calls, by the name of the library variable or call (`lib` for a call
that has no name of its own here). -/
inductive GoError where
  | new (text : String)
  | lib (text : String)
  | randRead (text : String)
  | parseSigned (text : String)
  | unmarshal (text : String)
  | sign (text : String)
  | ErrUnsupportedKeyType
  | ErrCryptoFailure
  | ErrInvalidIssuer
  | ErrInvalidSubject
  | ErrInvalidID
  | ErrInvalidAudience
  | ErrNotValidYet
  | ErrExpired
  | ErrIssuedInTheFuture
  deriving DecidableEq, Repr

/-- The method `Error()`: the text of an error. -/
def GoError.Error : GoError → String
  | .new text => text
  | .lib text => text
  | .randRead text => text
  | .parseSigned text => text
  | .unmarshal text => text
  | .sign text => text
  | .ErrUnsupportedKeyType => "square/go-jose: unsupported key type/format"
  | .ErrCryptoFailure => "square/go-jose: error in cryptographic primitive"
  | .ErrInvalidIssuer => "square/go-jose/jwt: validation failed, invalid issuer claim (iss)"
  | .ErrInvalidSubject => "square/go-jose/jwt: validation failed, invalid subject claim (sub)"
  | .ErrInvalidID => "square/go-jose/jwt: validation failed, invalid ID claim (jti)"
  | .ErrInvalidAudience => "square/go-jose/jwt: validation failed, invalid audience claim (aud)"
  | .ErrNotValidYet => "square/go-jose/jwt: validation failed, token not valid yet (nbf)"
  | .ErrExpired => "square/go-jose/jwt: validation failed, token is expired (exp)"
  | .ErrIssuedInTheFuture =>
    "square/go-jose/jwt: validation field, token issued in the future (iat)"

/-- Outcome of a Go call returning `(T, error)`: the value, the error, or a run-time panic. -/
inductive Result (α : Type) where
  | ok : α → Result α
  | error : GoError → Result α
  | panic : Result α
  deriving DecidableEq, Repr

/-! ## `encoding/base64`, `RawURLEncoding` -/

/-- The alphabet `encodeURL` of `encoding/base64`. -/
def encodeURL : String :=
  "ABCDEFGHIJKLMNOPQRSTUVWXYZabcdefghijklmnopqrstuvwxyz0123456789-_"

/-- The lookup `enc.encode[i]`; every index the encoder uses is masked with `0x3F`. -/
def encodeURLAt (i : Nat) : Char :=
  encodeURL.data.getD i 'A'

/-- The body of `(*Encoding).Encode` for an encoding without padding: full groups of three bytes
give four characters, a remainder of one byte gives two and a remainder of two bytes three. -/
def rawURLEncode : List Byte → List Char
  | [] => []
  | [a] =>
    let val := a.val <<< 16
    [encodeURLAt (val >>> 18 &&& 0x3F), encodeURLAt (val >>> 12 &&& 0x3F)]
  | [a, b] =>
    let val := a.val <<< 16 ||| b.val <<< 8
    [encodeURLAt (val >>> 18 &&& 0x3F), encodeURLAt (val >>> 12 &&& 0x3F),
      encodeURLAt (val >>> 6 &&& 0x3F)]
  | a :: b :: c :: rest =>
    let val := a.val <<< 16 ||| b.val <<< 8 ||| c.val
    encodeURLAt (val >>> 18 &&& 0x3F) :: encodeURLAt (val >>> 12 &&& 0x3F) ::
      encodeURLAt (val >>> 6 &&& 0x3F) :: encodeURLAt (val &&& 0x3F) :: rawURLEncode rest

/-- The URL-safe base64 alphabet by its description: the letters `A` to `Z` and `a` to `z`, the
digits, `-` and `_`. -/
def isURLSafeChar (c : Char) : Bool :=
  c.isUpper || c.isLower || c.isDigit || c == '-' || c == '_'

/-- The call `base64.RawURLEncoding.EncodeToString(b)`. -/
def encodeToString (b : List Byte) : String :=
  String.mk (rawURLEncode b)

/-! ## `crypto/rand` and `generateRandomString` -/

/-- One call of `rand.Read(b)`: the bytes it stored from index 0 of `b` and the error it
returned (`none` for `nil`). -/
structure RandRead where
  written : List Byte
  err : Option GoError
  deriving DecidableEq, Repr

/-- The value `int(math.Ceil(float64(.75) * float64(length)))`. The constant `.75` and the
product are exact in `float64` for every length below `2^51`, where the value is the integer
ceiling of `3 * length / 4`. -/
def byteLength (length : Nat) : Nat :=
  (3 * length + 3) / 4

/-- The buffer after `b := make([]byte, n)` and `rand.Read(b)`: the bytes the source stored,
followed by the zero bytes of `make` it left untouched. -/
def readInto (n : Nat) (r : RandRead) : List Byte :=
  r.written.take n ++ List.replicate (n - r.written.length) 0

/-- The slice expression `s[:n]` on a string of one-byte characters; out of range is a panic. -/
def sliceTo (s : String) (n : Nat) : Result String :=
  if n ≤ s.length then .ok (String.mk (s.data.take n)) else .panic

/-- The function `generateRandomString` of `web-app/auth/auth.go`. -/
def generateRandomString (length : Nat) (r : RandRead) : Result String :=
  let b := readInto (byteLength length) r
  match r.err with
  | some e => .error e
  | none =>
    let randomString := encodeToString b
    sliceTo randomString length

/-- The function `generateRandomString` of `m2m-app/auth/auth.go`, which returns a string only
and drops the error of `rand.Read`. -/
def m2mGenerateRandomString (length : Nat) (r : RandRead) : Result String :=
  let b := readInto (byteLength length) r
  let randomString := encodeToString b
  sliceTo randomString length

/-! ## `crypto/sha256` -/

/-- The round constants `_K` of `crypto/sha256`. -/
def sha256K : List Nat := [
  0x428a2f98, 0x71374491, 0xb5c0fbcf, 0xe9b5dba5, 0x3956c25b, 0x59f111f1, 0x923f82a4, 0xab1c5ed5,
  0xd807aa98, 0x12835b01, 0x243185be, 0x550c7dc3, 0x72be5d74, 0x80deb1fe, 0x9bdc06a7, 0xc19bf174,
  0xe49b69c1, 0xefbe4786, 0x0fc19dc6, 0x240ca1cc, 0x2de92c6f, 0x4a7484aa, 0x5cb0a9dc, 0x76f988da,
  0x983e5152, 0xa831c66d, 0xb00327c8, 0xbf597fc7, 0xc6e00bf3, 0xd5a79147, 0x06ca6351, 0x14292967,
  0x27b70a85, 0x2e1b2138, 0x4d2c6dfc, 0x53380d13, 0x650a7354, 0x766a0abb, 0x81c2c92e, 0x92722c85,
  0xa2bfe8a1, 0xa81a664b, 0xc24b8b70, 0xc76c51a3, 0xd192e819, 0xd6990624, 0xf40e3585, 0x106aa070,
  0x19a4c116, 0x1e376c08, 0x2748774c, 0x34b0bcb5, 0x391c0cb3, 0x4ed8aa4a, 0x5b9cca4f, 0x682e6ff3,
  0x748f82ee, 0x78a5636f, 0x84c87814, 0x8cc70208, 0x90befffa, 0xa4506ceb, 0xbef9a3f7, 0xc67178f2]

/-- Truncation to a `uint32`. -/
def u32 (x : Nat) : Nat := x % 2 ^ 32

/-- The call `bits.RotateLeft32(x, -n)`, a rotation to the right by `n` bits. -/
def rotr (x n : Nat) : Nat := u32 (x >>> n ||| x <<< (32 - n))

/-- The chaining value `h0 .. h7` of a SHA-256 digest. -/
structure Sha256State where
  h0 : Nat
  h1 : Nat
  h2 : Nat
  h3 : Nat
  h4 : Nat
  h5 : Nat
  h6 : Nat
  h7 : Nat
  deriving DecidableEq, Repr

/-- The initial chaining value `init0 .. init7`. -/
def sha256Init : Sha256State :=
  ⟨0x6a09e667, 0xbb67ae85, 0x3c6ef372, 0xa54ff53a, 0x510e527f, 0x9b05688c, 0x1f83d9ab, 0x5be0cd19⟩

/-- The big-endian `uint32` at byte offset `4 * i` of a block. -/
def beWord (block : List Byte) (i : Nat) : Nat :=
  (block.getD (4 * i) 0).val <<< 24 ||| (block.getD (4 * i + 1) 0).val <<< 16 |||
    (block.getD (4 * i + 2) 0).val <<< 8 ||| (block.getD (4 * i + 3) 0).val

/-- The message schedule: `w[0..15]` are the words of the block and `w[i]` for `16 ≤ i < 64`
is `t1 + w[i-7] + t2 + w[i-16]`. The list is built in order, `k` more words being due. -/
def schedule : Nat → List Nat → List Nat
  | 0, w => w
  | k + 1, w =>
    let i := w.length
    let v1 := w.getD (i - 2) 0
    let t1 := rotr v1 17 ^^^ rotr v1 19 ^^^ (v1 >>> 10)
    let v2 := w.getD (i - 15) 0
    let t2 := rotr v2 7 ^^^ rotr v2 18 ^^^ (v2 >>> 3)
    schedule k (w ++ [u32 (t1 + w.getD (i - 7) 0 + t2 + w.getD (i - 16) 0)])

/-- One of the 64 rounds of the compression function on the working variables `a .. h`. The
complement `^e` of a `uint32` is `e ^^^ 0xffffffff`. -/
def sha256Round (s : Sha256State) (kw : Nat × Nat) : Sha256State :=
  let t1 := s.h7 + (rotr s.h4 6 ^^^ rotr s.h4 11 ^^^ rotr s.h4 25) +
    ((s.h4 &&& s.h5) ^^^ ((s.h4 ^^^ 0xffffffff) &&& s.h6)) + kw.1 + kw.2
  let t2 := (rotr s.h0 2 ^^^ rotr s.h0 13 ^^^ rotr s.h0 22) +
    ((s.h0 &&& s.h1) ^^^ (s.h0 &&& s.h2) ^^^ (s.h1 &&& s.h2))
  ⟨u32 (t1 + t2), s.h0, s.h1, s.h2, u32 (s.h3 + t1), s.h4, s.h5, s.h6⟩

/-- The function `blockGeneric` on one 64-byte block. -/
def sha256Block (s : Sha256State) (block : List Byte) : Sha256State :=
  let w := schedule 48 ((List.range 16).map (beWord block))
  let t := (sha256K.zip w).foldl sha256Round s
  ⟨u32 (s.h0 + t.h0), u32 (s.h1 + t.h1), u32 (s.h2 + t.h2), u32 (s.h3 + t.h3),
    u32 (s.h4 + t.h4), u32 (s.h5 + t.h5), u32 (s.h6 + t.h6), u32 (s.h7 + t.h7)⟩

/-- The big-endian bytes of the low `8 * n` bits of `x`. -/
def beBytes : Nat → Nat → List Byte
  | 0, _ => []
  | n + 1, x => Fin.ofNat (x >>> (8 * n)) :: beBytes n x

/-- The padding of `checkSum`: the byte `0x80`, zero bytes up to 56 modulo 64, and the length
of the message in bits as a big-endian `uint64`. -/
def sha256Pad (msg : List Byte) : List Byte :=
  msg ++ [0x80] ++ List.replicate ((119 - msg.length % 64) % 64) 0 ++
    beBytes 8 (msg.length * 8 % 2 ^ 64)

/-- The blocks of a padded message are folded into the chaining value, 64 bytes at a time. -/
def sha256Blocks : Nat → Sha256State → List Byte → Sha256State
  | 0, s, _ => s
  | n + 1, s, data => sha256Blocks n (sha256Block s (data.take 64)) (data.drop 64)

/-- The digest `h.Sum(nil)` after `h := sha256.New()` and `h.Write(msg)`. -/
def sha256Sum (msg : List Byte) : List Byte :=
  let p := sha256Pad msg
  let s := sha256Blocks (p.length / 64) sha256Init p
  beBytes 4 s.h0 ++ beBytes 4 s.h1 ++ beBytes 4 s.h2 ++ beBytes 4 s.h3 ++
    beBytes 4 s.h4 ++ beBytes 4 s.h5 ++ beBytes 4 s.h6 ++ beBytes 4 s.h7

/-- The conversion `[]byte(s)`: the UTF-8 bytes of a string. -/
def goBytes (s : String) : List Byte :=
  s.data.flatMap fun c => (String.utf8EncodeChar c).map (·.val)

/-! ## The PKCE pair (`web-app/auth/auth.go`) -/

/-- The constant `stateLength`. -/
def stateLength : Nat := 64

/-- The constant `nonceLength`. -/
def nonceLength : Nat := 64

/-- The constant `codeVerifierLength`. -/
def codeVerifierLength : Nat := 64

/-- The function `GenerateState`. -/
def GenerateState (r : RandRead) : Result String :=
  match generateRandomString stateLength r with
  | .error e => .error e
  | .panic => .panic
  | .ok state => .ok state

/-- The function `GenerateNonce`. -/
def GenerateNonce (r : RandRead) : Result String :=
  match generateRandomString nonceLength r with
  | .error e => .error e
  | .panic => .panic
  | .ok nonce => .ok nonce

/-- The function `GenerateCodeVerifierAndChallenge`. The `Write` method of a hash never returns
an error, so the second error branch of the source is not reachable and has no case here. -/
def GenerateCodeVerifierAndChallenge (r : RandRead) : Result (String × String) :=
  match generateRandomString codeVerifierLength r with
  | .error e => .error e
  | .panic => .panic
  | .ok codeVerifier =>
    let sum := sha256Sum (goBytes codeVerifier)
    let codeChallenge := encodeToString sum
    .ok (codeVerifier, codeChallenge)

/-! ## `time` and `jwt.NumericDate` -/

/-- A `time.Time` as its wall-clock reading, in nanoseconds since the Unix epoch. -/
abbrev Time := Int

/-- A `time.Duration`, in nanoseconds. -/
abbrev Duration := Int

/-- The duration `time.Minute`. -/
def Minute : Duration := 60 * 1000000000

/-- The method `IsZero`: the instant January 1 of year 1, 00:00:00 UTC. -/
def Time.IsZero (t : Time) : Bool :=
  t == -62135596800 * 1000000000

/-- The method `Add`. -/
def Time.Add (t : Time) (d : Duration) : Time :=
  t + d

/-- The method `Before`. -/
def Time.Before (t u : Time) : Bool :=
  decide (t < u)

/-- The method `After`. -/
def Time.After (t u : Time) : Bool :=
  decide (t > u)

/-- The method `Unix`: whole seconds since the Unix epoch, rounded down. -/
def Time.Unix (t : Time) : Int :=
  t / 1000000000

/-- A `jwt.NumericDate`: seconds since the Unix epoch. -/
abbrev NumericDate := Int

/-- The function `jwt.NewNumericDate`. -/
def NewNumericDate (t : Time) : Option NumericDate :=
  some (Time.Unix t)

/-- The constant `unixToInternal` of package `time`: the seconds from January 1 of year 1 to
the Unix epoch. -/
def unixToInternal : Int := 62135596800

/-- The value of an `int64` expression: the integer result, wrapped into the range of `int64`. -/
def wrapInt64 (x : Int) : Int :=
  (x + 9223372036854775808) % 18446744073709551616 - 9223372036854775808

/-- The method `(*NumericDate).Time`, which is `time.Unix(int64(*n), 0)`. The `Time` holds the
second count `sec + unixToInternal` as an `int64`, so the sum wraps for a date above
`2^63 - 1 - unixToInternal`, and `Before` and `After` compare that count: the time returned is
the one that the wrapped count stands for. -/
def NumericDate.Time (n : NumericDate) : Time :=
  (wrapInt64 (n + unixToInternal) - unixToInternal) * 1000000000

/-- The dates that `time.Unix` converts without overflow: the `int64` values of at most
`2^63 - 1 - unixToInternal = 9223371974719179007` seconds. -/
def NumericDate.inRange (n : Int) : Prop :=
  -9223372036854775808 ≤ n ∧ n ≤ 9223371974719179007

/-! ## go-jose: claims, keys and tokens -/

/-- The struct `jwt.Claims`. A `nil` date is `none`. -/
structure Claims where
  Issuer : String
  Subject : String
  Audience : List String
  Expiry : Option NumericDate
  NotBefore : Option NumericDate
  IssuedAt : Option NumericDate
  ID : String
  deriving DecidableEq, Repr

/-- The struct `jwt.Expected`. -/
structure Expected where
  Issuer : String
  Subject : String
  Audience : List String
  ID : String
  Time : Time
  deriving DecidableEq, Repr

/-- The method `Audience.Contains`. -/
def Audience.Contains : List String → String → Bool
  | [], _ => false
  | a :: s, v => if a = v then true else Audience.Contains s v

/-- The loop of `ValidateWithLeeway` over the expected audiences: the first one that the claim
does not contain fails the validation. -/
def audienceMissing (c : List String) : List String → Bool
  | [] => false
  | v :: e => if !Audience.Contains c v then true else audienceMissing c e

/-- The method `Claims.ValidateWithLeeway` of go-jose v2; `none` is the `nil` error. -/
def Claims.ValidateWithLeeway (c : Claims) (e : Expected) (leeway : Duration) : Option GoError :=
  if e.Issuer ≠ "" ∧ e.Issuer ≠ c.Issuer then some .ErrInvalidIssuer
  else if e.Subject ≠ "" ∧ e.Subject ≠ c.Subject then some .ErrInvalidSubject
  else if e.ID ≠ "" ∧ e.ID ≠ c.ID then some .ErrInvalidID
  else if e.Audience.length ≠ 0 ∧ audienceMissing c.Audience e.Audience = true then
    some .ErrInvalidAudience
  else if !Time.IsZero e.Time then
    if c.NotBefore.any (fun nbf => Time.Before (Time.Add e.Time leeway) (NumericDate.Time nbf))
    then some .ErrNotValidYet
    else if c.Expiry.any (fun exp => Time.After (Time.Add e.Time (-leeway)) (NumericDate.Time exp))
    then some .ErrExpired
    else if c.IssuedAt.any
        (fun iat => Time.Before (Time.Add e.Time leeway) (NumericDate.Time iat))
    then some .ErrIssuedInTheFuture
    else none
  else none

/-- The material of a public key; its arithmetic is not looked into. -/
abbrev PublicKey := Nat

/-- The struct `jose.JSONWebKey`. The zero value, which a failed `UnmarshalJSON` leaves behind,
has the empty key id and no key. -/
structure JSONWebKey where
  Key : Option PublicKey
  KeyID : String
  deriving DecidableEq, Repr

/-- The struct `jose.JSONWebKeySet`. -/
structure JSONWebKeySet where
  Keys : List JSONWebKey
  deriving DecidableEq, Repr

/-- The method `JSONWebKeySet.Key`: the keys with the given key id, in order. -/
def JSONWebKeySet.Key (s : JSONWebKeySet) (kid : String) : List JSONWebKey :=
  s.Keys.filter (fun key => key.KeyID = kid)

/-- The struct `jose.Header`, reduced to the key id. -/
structure Header where
  KeyID : String
  deriving DecidableEq, Repr

/-- The JSON value of the member `scope` of a token payload. An element of an array that is not
a JSON string is `none`. -/
inductive ScopeClaim where
  | absent
  | string (s : String)
  | array (items : List (Option String))
  | other
  deriving DecidableEq, Repr

/-- The struct `jwt.JSONWebToken`: the headers of its signatures, the closure `payload` that
checks the signature under a public key, and its payload. Of the payload what the program decodes
is kept: `claims` is the outcome of `json.Unmarshal` into a `jwt.Claims` (`none` when it returns
an error) and `scope` is the member `scope`. -/
structure JSONWebToken where
  Headers : List Header
  verifiesUnder : PublicKey → Bool
  claims : Option Claims
  scope : ScopeClaim

/-- What `tryJWKS` hands to the verification: the key set itself when it resolved no key,
otherwise the field `Key` of the first key with the key id of the token. -/
inductive VerificationKey where
  | keySet (s : JSONWebKeySet)
  | key (k : Option PublicKey)
  deriving DecidableEq, Repr

/-- The loop of `tryJWKS` over the headers: the first non-empty key id, or the empty string. -/
def firstKeyID : List Header → String
  | [] => ""
  | h :: hs => if h.KeyID ≠ "" then h.KeyID else firstKeyID hs

/-- The function `tryJWKS` of go-jose v2 on a key set. -/
def tryJWKS (headers : List Header) (jwks : JSONWebKeySet) : VerificationKey :=
  let kid := firstKeyID headers
  if kid = "" then .keySet jwks
  else
    match jwks.Key kid with
    | [] => .keySet jwks
    | k :: _ => .key k.Key

/-- The method `JSONWebToken.Claims(key, &claims)` with a key set: resolve the key, verify the
signature (`newVerifier` accepts neither a key set nor a `nil` key), decode the payload. -/
def JSONWebToken.Claims (t : JSONWebToken) (jwks : JSONWebKeySet) : Except GoError Claims :=
  match tryJWKS t.Headers jwks with
  | .keySet _ => .error .ErrUnsupportedKeyType
  | .key none => .error .ErrUnsupportedKeyType
  | .key (some pk) =>
    if t.verifiesUnder pk then
      match t.claims with
      | some c => .ok c
      | none => .error (.unmarshal "json: cannot unmarshal payload into jwt.Claims")
    else .error .ErrCryptoFailure

/-- The slice `claims.Scopes` after `token.UnsafeClaimsWithoutVerification(&claims)` with a field
`Scopes []string`. The JSON decoder of go-jose, its copy of `encoding/json`, decodes a JSON array
element by element and leaves the empty string where an element is not a string; for any other
JSON value it reports an error, which the caller drops, and leaves the slice `nil`. -/
def decodeScopes : ScopeClaim → List String
  | .array items => items.map (fun item => item.getD "")
  | .string _ => []
  | .absent => []
  | .other => []

/-! ## `strings` -/

/-- The function `unicode.IsSpace`. -/
def isSpace (c : Char) : Bool :=
  let n := c.toNat
  n == 0x09 || n == 0x0A || n == 0x0B || n == 0x0C || n == 0x0D || n == 0x20 || n == 0x85 ||
    n == 0xA0 || n == 0x1680 || (0x2000 ≤ n && n ≤ 0x200A) || n == 0x2028 || n == 0x2029 ||
    n == 0x202F || n == 0x205F || n == 0x3000

/-- The scan of `strings.Fields`: `cur` holds the characters of the field being read, last
first; a space ends a non-empty field. -/
def fieldsLoop : List Char → List Char → List String
  | [], cur => if cur.isEmpty then [] else [String.mk cur.reverse]
  | c :: cs, cur =>
    if isSpace c then
      if cur.isEmpty then fieldsLoop cs [] else String.mk cur.reverse :: fieldsLoop cs []
    else fieldsLoop cs (c :: cur)

/-- The function `strings.Fields`. -/
def Fields (s : String) : List String :=
  fieldsLoop s.data []

/-- The function `strings.ToLower` on the letters `A` to `Z`. A character outside ASCII is left
as it is: `unicode.ToLower` sends none of them to a letter of `bearer`, so that the comparison of
the result with `"bearer"` is the one of the source. -/
def ToLower (s : String) : String :=
  String.mk (s.data.map fun c =>
    if 'A'.toNat ≤ c.toNat ∧ c.toNat ≤ 'Z'.toNat then Char.ofNat (c.toNat + 32) else c)

/-! ## The resource server (`api/auth/auth.go`) -/

/-- The constant `apiName`. -/
def apiName : String := "norsk-helsenett:golang-sample-api"

/-- The struct `authorizationServerMetadata` of the resource server. -/
structure authorizationServerMetadata where
  Issuer : String
  Jwks_uri : String
  Jwks : JSONWebKeySet
  deriving DecidableEq, Repr

/-- The request, reduced to `r.Header.Get("Authorization")`. -/
structure Request where
  Authorization : String
  deriving DecidableEq, Repr

/-- The text of the error for a malformed header. -/
def headerFormatText : String :=
  "authorization header format must be: Bearer {the base64 url encoded access token without curly braces}"

/-- The text of the error for a token with several audiences. -/
def multipleAudiencesText : String :=
  "access token contained multiple audiences"

/-- A run of white space, as the description of the header format has it. -/
def isBlank (w : List Char) : Prop :=
  ∀ c ∈ w, isSpace c = true

/-- A field: at least one character and no white space. -/
def isField (f : List Char) : Prop :=
  f ≠ [] ∧ ∀ c ∈ f, isSpace c = false

/-- The header splits on white space into exactly the two fields `scheme` and `token`: they
are separated by white space, and white space may precede the first and follow the second. -/
def splitsInTwo (header scheme token : List Char) : Prop :=
  ∃ w0 w1 w2 : List Char, isBlank w0 ∧ isBlank w1 ∧ w1 ≠ [] ∧ isBlank w2 ∧
    isField scheme ∧ isField token ∧ header = w0 ++ scheme ++ w1 ++ token ++ w2

/-- The scheme equals `bearer` without regard to case: six letters, each in either case. -/
def isBearer (scheme : List Char) : Prop :=
  ∃ c1 c2 c3 c4 c5 c6 : Char, scheme = [c1, c2, c3, c4, c5, c6] ∧
    (c1 = 'b' ∨ c1 = 'B') ∧ (c2 = 'e' ∨ c2 = 'E') ∧ (c3 = 'a' ∨ c3 = 'A') ∧
    (c4 = 'r' ∨ c4 = 'R') ∧ (c5 = 'e' ∨ c5 = 'E') ∧ (c6 = 'r' ∨ c6 = 'R')

/-- The format of the header by its description: two fields, the first of which is `bearer`
in any case and the second the token string. -/
def isBearerHeader (header token : String) : Prop :=
  ∃ scheme : List Char, splitsInTwo header.data scheme token.data ∧ isBearer scheme

/-- The first statements of `getTokenFromAuthHeaderAndValidate`: the token string of the
header, or the error for its format. -/
def tokenStringOfHeader (r : Request) : Except GoError String :=
  let authHeader := r.Authorization
  let authHeaderParts := Fields authHeader
  if authHeaderParts.length ≠ 2 ∨ ToLower (authHeaderParts.getD 0 "") ≠ "bearer" then
    .error (.new headerFormatText)
  else .ok (authHeaderParts.getD 1 "")

/-- The statements of `getTokenFromAuthHeaderAndValidate` after the parse: signature and
decoding, validation of the claims with leeway 0, and the check for several audiences. -/
def validateToken (helseidMetadata : authorizationServerMetadata) (now : Nat)
    (token : JSONWebToken) : Except GoError JSONWebToken :=
  match token.Claims helseidMetadata.Jwks with
  | .error e => .error e
  | .ok claims =>
    match claims.ValidateWithLeeway
      { Issuer := helseidMetadata.Issuer, Subject := "", Audience := [apiName], ID := "",
        Time := (now : Int) } 0 with
    | some e => .error e
    | none =>
      if claims.Audience.length > 1 then .error (.new multipleAudiencesText)
      else .ok token

/-- The function `getTokenFromAuthHeaderAndValidate`. `ParseSigned` is `jwt.ParseSigned`,
`helseidMetadata` the package variable, and `now` the reading of `time.Now()` in nanoseconds
since the Unix epoch, a time of the system clock, which a `Time` holds exactly. -/
def getTokenFromAuthHeaderAndValidate (ParseSigned : String → Except GoError JSONWebToken)
    (helseidMetadata : authorizationServerMetadata) (now : Nat) (r : Request) :
    Except GoError JSONWebToken :=
  match tokenStringOfHeader r with
  | .error e => .error e
  | .ok tokenString =>
    match ParseSigned tokenString with
    | .error e => .error e
    | .ok token => validateToken helseidMetadata now token

/-- What a handler did with `w` and `next`: the number of calls of `next`, and the calls
`http.Error(w, text, code)` in order. -/
structure Handled where
  nextCalls : Nat
  errors : List (String × Nat)
  deriving DecidableEq, Repr

/-- The constant `http.StatusUnauthorized`. -/
def StatusUnauthorized : Nat := 401

/-- The text of the error for a missing scope. -/
def missingScopeText : String :=
  "access token did not contain the required scope"

/-- The loop of the middleware over `claims.Scopes`, and the statement after it. -/
def scopeLoop (requiredScope : String) : List String → Handled
  | [] => ⟨0, [(missingScopeText, StatusUnauthorized)]⟩
  | scope :: rest => if scope = requiredScope then ⟨1, []⟩ else scopeLoop requiredScope rest

/-- The handler returned by `IsAuthenticatedAndAuthorizedMiddleware(requiredScope)`. -/
def IsAuthenticatedAndAuthorizedMiddleware (requiredScope : String)
    (ParseSigned : String → Except GoError JSONWebToken)
    (helseidMetadata : authorizationServerMetadata) (now : Nat) (r : Request) : Handled :=
  match getTokenFromAuthHeaderAndValidate ParseSigned helseidMetadata now r with
  | .error err => ⟨0, [(err.Error, StatusUnauthorized)]⟩
  | .ok token => scopeLoop requiredScope (decodeScopes token.scope)

/-! ## The client assertion (`web-app/auth/auth.go`, `m2m-app/auth/auth.go`) -/

/-- The constant `ClientId` of the web application. -/
def ClientId : String := "golang-web-app"

/-- The constant `ClientId` of the machine-to-machine client. -/
def m2mClientId : String := "golang-m2m-app"

/-- The struct `authorizationServerMetadata` of the two clients. -/
structure clientMetadata where
  Issuer : String
  Authorization_endpoint : String
  Token_endpoint : String
  End_session_endpoint : String
  deriving DecidableEq, Repr

/-- The struct of the claims literal of `GenerateRequestObject`. -/
structure RequestObjectClaims where
  Id : String
  NotBefore : Option NumericDate
  Expiry : Option NumericDate
  Iss : String
  Client_id : String
  Aud : String
  Response_type : String
  Redirect_uri : String
  Scope : String
  State : String
  Nonce : String
  Code_challenge : String
  Code_challenge_method : String
  deriving DecidableEq, Repr

/-- The values that are passed to `generateSignedJwt` as `claims interface{}`. -/
inductive JwtPayload where
  | assertion (c : Claims)
  | request (c : RequestObjectClaims)
  deriving DecidableEq, Repr

/-- A `jose.Signer`, as the call `jwt.Signed(signer).Claims(claims).CompactSerialize()`. The
signature itself is not looked into. -/
abbrev Signer := JwtPayload → Except GoError String

/-- The function `generateSignedJwt`. The package variable `jwtSigner` is passed in, and
returned as the call leaves it; `getJwtSigner` is the outcome of the function of that name. -/
def generateSignedJwt (jwtSigner : Option Signer) (getJwtSigner : Except GoError Signer)
    (claims : JwtPayload) : Result String × Option Signer :=
  match jwtSigner with
  | none =>
    match getJwtSigner with
    | .error err => (.error err, none)
    | .ok signer =>
      match signer claims with
      | .error err => (.error err, some signer)
      | .ok jwtString => (.ok jwtString, some signer)
  | some signer =>
    match signer claims with
    | .error err => (.error err, some signer)
    | .ok jwtString => (.ok jwtString, some signer)

/-- The claims literal of `GenerateClientAssertionToken`. The three calls of `time.Now()` are
the readings `now1`, `now2` and `now3`, in nanoseconds since the Unix epoch and in the order of
the fields `NotBefore`, `IssuedAt` and `Expiry`. -/
def clientAssertionClaims (HelseidMetadata : clientMetadata) (jti : String)
    (now1 now2 now3 : Nat) : Claims :=
  { Issuer := ClientId
    Subject := ClientId
    NotBefore := NewNumericDate (now1 : Int)
    IssuedAt := NewNumericDate (now2 : Int)
    Expiry := NewNumericDate (Time.Add (now3 : Int) Minute)
    ID := jti
    Audience := [HelseidMetadata.Token_endpoint] }

/-- The function `GenerateClientAssertionToken` of the web application. -/
def GenerateClientAssertionToken (jwtSigner : Option Signer)
    (getJwtSigner : Except GoError Signer) (HelseidMetadata : clientMetadata) (r : RandRead)
    (now1 now2 now3 : Nat) : Result String × Option Signer :=
  match generateRandomString 24 r with
  | .error err => (.error err, jwtSigner)
  | .panic => (.panic, jwtSigner)
  | .ok jti =>
    let claims := clientAssertionClaims HelseidMetadata jti now1 now2 now3
    generateSignedJwt jwtSigner getJwtSigner (.assertion claims)

/-- The claims literal of `generateClientAssertionToken` of the machine-to-machine client,
with the three readings of the clock as in `clientAssertionClaims`. -/
def m2mClientAssertionClaims (helseIdMetadata : clientMetadata) (jti : String)
    (now1 now2 now3 : Nat) : Claims :=
  { Issuer := m2mClientId
    Subject := m2mClientId
    NotBefore := NewNumericDate (now1 : Int)
    IssuedAt := NewNumericDate (now2 : Int)
    Expiry := NewNumericDate (Time.Add (now3 : Int) Minute)
    ID := jti
    Audience := [helseIdMetadata.Token_endpoint] }

/-- The function `generateClientAssertionToken` of the machine-to-machine client. `signer` is
the signer it makes from the embedded key; the error of the serialization is dropped and the
string is then empty. -/
def generateClientAssertionToken (signer : Signer) (helseIdMetadata : clientMetadata)
    (r : RandRead) (now1 now2 now3 : Nat) : Result String :=
  match m2mGenerateRandomString 24 r with
  | .error err => .error err
  | .panic => .panic
  | .ok jti =>
    let claims := m2mClientAssertionClaims helseIdMetadata jti now1 now2 now3
    match signer (.assertion claims) with
    | .error _ => .ok ""
    | .ok raw => .ok raw

/-- The conditions of a valid request as the specification lists them: the header is
`Bearer <token>`, the token parses as a signed JWT, its signature verifies under a key of the
cached key set, its issuer is the cached issuer, its audience is the single value `apiName`,
and the current time lies in `[nbf, exp)`. -/
def listedValid (ParseSigned : String → Except GoError JSONWebToken)
    (helseidMetadata : authorizationServerMetadata) (now : Nat) (r : Request)
    (token : JSONWebToken) : Prop :=
  ∃ (tokenString : String) (c : Claims) (nbf exp : NumericDate),
    r.Authorization = "Bearer " ++ tokenString ∧ ParseSigned tokenString = .ok token ∧
    (∃ key ∈ helseidMetadata.Jwks.Keys, ∃ pk, key.Key = some pk ∧
      token.verifiesUnder pk = true) ∧
    token.claims = some c ∧ c.Issuer = helseidMetadata.Issuer ∧ c.Audience = [apiName] ∧
    c.NotBefore = some nbf ∧ c.Expiry = some exp ∧
    nbf * 1000000000 ≤ (now : Int) ∧ (now : Int) < exp * 1000000000

/-! ## Sample values -/

/-- A cached metadata record with one key, of key id `k1`. -/
def sampleMetadata : authorizationServerMetadata :=
  { Issuer := "https://helseid-sts.utvikling.nhn.no"
    Jwks_uri := "https://helseid-sts.utvikling.nhn.no/.well-known/openid-configuration/jwks"
    Jwks := ⟨[⟨some 1, "k1"⟩]⟩ }

/-- Claims of the issuer of `sampleMetadata` for this resource server, valid from second 1000
to second 2000 and issued at second 1000. -/
def sampleClaims : Claims :=
  { Issuer := "https://helseid-sts.utvikling.nhn.no"
    Subject := "golang-m2m-app"
    Audience := [apiName]
    Expiry := some 2000
    NotBefore := some 1000
    IssuedAt := some 1000
    ID := "0123456789" }

/-- A token with the given key id, claims and scope whose signature verifies under key 1 only. -/
def sampleToken (kid : String) (c : Claims) (scope : ScopeClaim) : JSONWebToken :=
  { Headers := [⟨kid⟩]
    verifiesUnder := fun pk => pk == 1
    claims := some c
    scope := scope }

/-- A parser that knows one token string, `e30.e30.c2ln`. -/
def sampleParse (t : JSONWebToken) (s : String) : Except GoError JSONWebToken :=
  if s = "e30.e30.c2ln" then .ok t
  else .error (.parseSigned "square/go-jose: compact JWS format must have three parts")

/-! ## The request object (`web-app/auth/auth.go`) -/

/-- The variable `scopes` of the web application. -/
def scopes : List String := ["openid", "profile", "norsk-helsenett:golang-sample-api/foo"]

/-- The constant `redirectLoginUrl`. -/
def redirectLoginUrl : String := "http://localhost:44123/callback"

/-- The constant `RedirectLogoutUrl`. -/
def RedirectLogoutUrl : String := "http://localhost:44123"

/-- The function `strings.Join`. -/
def Join : List String → String → String
  | [], _ => ""
  | [a], _ => a
  | a :: b :: rest, sep => a ++ sep ++ Join (b :: rest) sep

/-- The claims literal of `GenerateRequestObject`. The two calls of `time.Now()` are the
readings `now1` and `now2`, in nanoseconds since the Unix epoch and in the order of the fields
`NotBefore` and `Expiry`. -/
def requestObjectClaims (HelseidMetadata : clientMetadata) (jti : String) (now1 now2 : Nat)
    (state nonce codeChallenge : String) : RequestObjectClaims :=
  { Id := jti
    NotBefore := NewNumericDate (now1 : Int)
    Expiry := NewNumericDate (Time.Add (now2 : Int) Minute)
    Iss := ClientId
    Client_id := ClientId
    Aud := HelseidMetadata.Issuer
    Response_type := "code"
    Redirect_uri := redirectLoginUrl
    Scope := Join scopes " "
    State := state
    Nonce := nonce
    Code_challenge := codeChallenge
    Code_challenge_method := "S256" }

/-- The function `GenerateRequestObject`. -/
def GenerateRequestObject (jwtSigner : Option Signer) (getJwtSigner : Except GoError Signer)
    (HelseidMetadata : clientMetadata) (r : RandRead) (now1 now2 : Nat)
    (state nonce codeChallenge : String) : Result String × Option Signer :=
  match generateRandomString 24 r with
  | .error err => (.error err, jwtSigner)
  | .panic => (.panic, jwtSigner)
  | .ok jti =>
    let claims := requestObjectClaims HelseidMetadata jti now1 now2 state nonce codeChallenge
    generateSignedJwt jwtSigner getJwtSigner (.request claims)

/-! ## The key set of the resource server (`api/auth/auth.go`) -/

/-- One element of the array `keys` of the JWKS document, by what `key.UnmarshalJSON(rawKey)`
does with it: the value it leaves in the fresh `key`, and the error it returns (`none` for
`nil`, the element is then a well-formed key and `key` the decoded key). -/
structure RawKey where
  key : JSONWebKey
  err : Option GoError
  deriving DecidableEq, Repr

/-- The loop of `RefreshHelseidMetadata` over `rawJsonKeys.Keys`; the error of `UnmarshalJSON`
is not looked at. -/
def keySetLoop : List JSONWebKey → List RawKey → List JSONWebKey
  | keySet, [] => keySet
  | keySet, rawKey :: rest => keySetLoop (keySet ++ [rawKey.key]) rest

/-- How a call of `RefreshHelseidMetadata` ends: `log.Fatalf` ends the process, otherwise the
function returns and the package variable `helseidMetadata` holds a new value. -/
inductive Refreshed where
  | fatal
  | returned (helseidMetadata : authorizationServerMetadata)
  deriving DecidableEq, Repr

/-- The function `RefreshHelseidMetadata` of the resource server. `discovery` is the outcome of
the first `http.Get` and, inside, of the decoding of its body into `helseidMetadata`; `jwks`
gives for an address the outcome of the second `http.Get` and of the decoding of its body into
`rawJsonKeys`. -/
def RefreshHelseidMetadata
    (discovery : Except GoError (Except GoError authorizationServerMetadata))
    (jwks : String → Except GoError (Except GoError (List RawKey))) : Refreshed :=
  match discovery with
  | .error _ => .fatal
  | .ok (.error _) => .fatal
  | .ok (.ok helseidMetadata) =>
    match jwks helseidMetadata.Jwks_uri with
    | .error _ => .fatal
    | .ok (.error _) => .fatal
    | .ok (.ok rawJsonKeys) =>
      let keySet := keySetLoop [] rawJsonKeys
      .returned { helseidMetadata with Jwks := ⟨keySet⟩ }

/-! ## Sessions, `oauth2` and `go-oidc` as the handlers of the web application use them -/

/-- A value of the map `session.Values`, an `interface{}`: a string, the map
`map[string]interface{}` decoded from the payload of an ID token, or a value of another type. -/
inductive SessionValue where
  | str (s : String)
  | claims (payload : String)
  | other (n : Nat)
  deriving DecidableEq, Repr

/-- A `sessions.Session`, reduced to its map `Values`. -/
structure Session where
  Values : List (String × SessionValue)
  deriving DecidableEq, Repr

/-- The index expression `session.Values[key]`; `none` is the `nil` of an absent key. -/
def Session.value (s : Session) (key : String) : Option SessionValue :=
  s.Values.lookup key

/-- The assignment `session.Values[key] = v`. -/
def Session.set (s : Session) (key : String) (v : SessionValue) : Session :=
  ⟨(key, v) :: s.Values.filter (fun p => p.1 ≠ key)⟩

/-- The comparison `str != x` of a string with an `interface{}`: they are equal when `x` holds
a string and that string is `str`. -/
def stringNe (str : String) (x : Option SessionValue) : Bool :=
  x ≠ some (.str str)

/-- An `oauth2.Token`: the access token, and `token.Extra("id_token").(string)` (`none` when
the assertion of the type fails). -/
structure Token where
  AccessToken : String
  id_token : Option String
  deriving DecidableEq, Repr

/-- An `oidc.IDToken`: the nonce, and the outcome of `idToken.Claims(&claims)` with a map, which
is the decoding of the payload. -/
structure IDToken where
  Nonce : String
  payload : Except GoError String

/-- The struct `Authenticator`: of `Config` the endpoint, client id, redirect address and
scopes, the call `Config.Exchange` with the code and the three parameters `code_verifier`,
`client_assertion` and `client_assertion_type`, and the call
`Provider.Verifier(oidcConfig).Verify` for the client id. -/
structure Authenticator where
  AuthURL : String
  ClientID : String
  RedirectURL : String
  Scopes : List String
  Exchange : String → String → String → String → Except GoError Token
  Verify : String → String → Except GoError IDToken

/-- The value `url.Values` with the method `Set`. -/
def setParam (v : List (String × String)) (key value : String) : List (String × String) :=
  v.filter (fun p => p.1 ≠ key) ++ [(key, value)]

/-- The method `Config.AuthCodeURL(state, opts...)` of `oauth2`, as the address of the
endpoint and the query parameters before their encoding; `opts` are the parameters that
`oauth2.SetAuthURLParam` sets, in order. -/
def AuthCodeURL (a : Authenticator) (state : String) (opts : List (String × String)) :
    String × List (String × String) :=
  let v := [("response_type", "code"), ("client_id", a.ClientID)]
  let v := if a.RedirectURL ≠ "" then setParam v "redirect_uri" a.RedirectURL else v
  let v := if a.Scopes.length > 0 then setParam v "scope" (Join a.Scopes " ") else v
  let v := if state ≠ "" then setParam v "state" state else v
  (a.AuthURL, opts.foldl (fun v opt => setParam v opt.1 opt.2) v)

/-- Where a redirect goes: a path of the application, or an address of `AuthCodeURL`. -/
inductive Location where
  | path (p : String)
  | authCodeURL (url : String × List (String × String))
  deriving DecidableEq, Repr

/-- What a handler of the web application does, in order: a call of `http.Error`, of
`w.WriteHeader`, of `http.Redirect`, of `session.Save` with the values of the session, of
`auth.GenerateClientAssertionToken`, of `Config.Exchange` (the token endpoint) with the code,
the code verifier and the client assertion, or a run-time panic. -/
inductive Event where
  | httpError (text : String) (code : Nat)
  | writeHeader (code : Nat)
  | redirect (location : Location) (code : Nat)
  | save (session : Session)
  | clientAssertion
  | exchange (code codeVerifier clientAssertion : String)
  | panic
  deriving DecidableEq, Repr

/-- A run of a handler: its events, the session in memory when it returns, and the package
variable `jwtSigner` as it leaves it. -/
structure Run where
  events : List Event
  session : Session
  jwtSigner : Option Signer

/-- What the web application holds and reads outside the request: the package variables
`jwtSigner` and `HelseidMetadata`, the outcome of `getJwtSigner` and of `auth.NewAuthenticator`,
and the outcome of `session.Save` for a session (`none` for `nil`). -/
structure WebApp where
  jwtSigner : Option Signer
  getJwtSigner : Except GoError Signer
  HelseidMetadata : clientMetadata
  NewAuthenticator : Except GoError Authenticator
  Save : Session → Option GoError

/-- The constant `http.StatusBadRequest`. -/
def StatusBadRequest : Nat := 400

/-- The constant `http.StatusInternalServerError`. -/
def StatusInternalServerError : Nat := 500

/-- The constant `http.StatusSeeOther`. -/
def StatusSeeOther : Nat := 303

/-- The constant `http.StatusTemporaryRedirect`. -/
def StatusTemporaryRedirect : Nat := 307

/-! ## The callback (`web-app/routes/callback/callback.go`) -/

/-- What a call of `CallbackHandler` reads: the outcome `session, err` of
`sessionstorage.Store.Get`, the query parameters `state` and `code`, and for the call of
`auth.GenerateClientAssertionToken` the read of the random source and the three readings of the
clock. -/
structure CallbackRequest where
  session : Session
  sessionErr : Option GoError
  state : String
  code : String
  jtiRead : RandRead
  now1 : Nat
  now2 : Nat
  now3 : Nat

/-- The statements of `CallbackHandler` from the verification of the ID token on; `pre` are
the events before it. -/
def callbackVerify (app : WebApp) (session : Session) (authenticator : Authenticator)
    (token : Token) (rawIDToken : String) (pre : List Event) (jwtSigner : Option Signer) : Run :=
  match authenticator.Verify ClientId rawIDToken with
  | .error err =>
    ⟨pre ++ [.httpError ("Failed to verify ID Token" ++ err.Error) StatusInternalServerError],
      session, jwtSigner⟩
  | .ok idToken =>
    if stringNe idToken.Nonce (session.value "nonce") then
      ⟨pre ++ [.httpError "Invalid nonce" StatusBadRequest], session, jwtSigner⟩
    else
      match idToken.payload with
      | .error err =>
        ⟨pre ++ [.httpError err.Error StatusInternalServerError], session, jwtSigner⟩
      | .ok claims =>
        let session := session.set "id_token" (.str rawIDToken)
        let session := session.set "access_token" (.str token.AccessToken)
        let session := session.set "claims" (.claims claims)
        match app.Save session with
        | some err =>
          ⟨pre ++ [.save session, .httpError err.Error StatusInternalServerError], session,
            jwtSigner⟩
        | none =>
          ⟨pre ++ [.save session, .redirect (.path "/user") StatusSeeOther], session,
            jwtSigner⟩

/-- The statements of `CallbackHandler` after the check of the state. -/
def callbackExchange (app : WebApp) (r : CallbackRequest) (session : Session) : Run :=
  match session.value "code-verifier" with
  | some (.str codeVerifier) =>
    match GenerateClientAssertionToken app.jwtSigner app.getJwtSigner app.HelseidMetadata
        r.jtiRead r.now1 r.now2 r.now3 with
    | (.error _, jwtSigner) =>
      ⟨[.clientAssertion,
          .httpError "Failed to create client assertion token" StatusInternalServerError],
        session, jwtSigner⟩
    | (.panic, jwtSigner) => ⟨[.clientAssertion, .panic], session, jwtSigner⟩
    | (.ok clientAssertionToken, jwtSigner) =>
      match app.NewAuthenticator with
      | .error err =>
        ⟨[.clientAssertion, .httpError err.Error StatusInternalServerError], session,
          jwtSigner⟩
      | .ok authenticator =>
        let pre := [Event.clientAssertion,
          Event.exchange r.code codeVerifier clientAssertionToken]
        match authenticator.Exchange r.code codeVerifier clientAssertionToken
            "urn:ietf:params:oauth:client-assertion-type:jwt-bearer" with
        | .error _ => ⟨pre ++ [.writeHeader StatusUnauthorized], session, jwtSigner⟩
        | .ok token =>
          match token.id_token with
          | none =>
            ⟨pre ++ [.httpError "No id_token field in oauth2 token." StatusInternalServerError],
              session, jwtSigner⟩
          | some rawIDToken =>
            callbackVerify app session authenticator token rawIDToken pre jwtSigner
  | _ => ⟨[.panic], session, app.jwtSigner⟩

/-- The function `CallbackHandler`. -/
def CallbackHandler (app : WebApp) (r : CallbackRequest) : Run :=
  let session := r.session
  match r.sessionErr with
  | some err => ⟨[.httpError err.Error StatusInternalServerError], session, app.jwtSigner⟩
  | none =>
    if stringNe r.state (session.value "state") then
      ⟨[.httpError "Invalid state parameter" StatusBadRequest], session, app.jwtSigner⟩
    else callbackExchange app r session

/-! ## The login (`web-app/routes/login/login.go`) -/

/-- What a call of `LoginHandler` reads: the outcome `session, err` of
`sessionstorage.Store.Get`, the reads of the random source for the state, the code verifier, the
nonce and the `jti` of the request object, and the two readings of the clock of
`GenerateRequestObject`. -/
structure LoginRequest where
  session : Session
  sessionErr : Option GoError
  stateRead : RandRead
  verifierRead : RandRead
  nonceRead : RandRead
  jtiRead : RandRead
  now1 : Nat
  now2 : Nat

/-- The statements of `LoginHandler` from `session.Save` on; `pre` are the events before
it. -/
def loginSaveAndRedirect (app : WebApp) (r : LoginRequest) (session : Session)
    (state codeChallenge nonce : String) (pre : List Event) : Run :=
  match app.Save session with
  | some err =>
    ⟨pre ++ [.save session, .httpError err.Error StatusInternalServerError], session,
      app.jwtSigner⟩
  | none =>
    let pre := pre ++ [.save session]
    let codeChallengeOpt := ("code_challenge", codeChallenge)
    let codeChallengeMethodOpt := ("code_challenge_method", "S256")
    let nonceOpt := ("nonce", nonce)
    match app.NewAuthenticator with
    | .error err =>
      ⟨pre ++ [.httpError err.Error StatusInternalServerError], session, app.jwtSigner⟩
    | .ok authenticator =>
      let generated := GenerateRequestObject app.jwtSigner app.getJwtSigner app.HelseidMetadata
        r.jtiRead r.now1 r.now2 state nonce codeChallenge
      match generated.1 with
      | .panic => ⟨pre ++ [.panic], session, generated.2⟩
      | .error _ =>
        let requestObjectOpt := ("request", "")
        ⟨pre ++ [.redirect (.authCodeURL (AuthCodeURL authenticator state
            [codeChallengeOpt, codeChallengeMethodOpt, nonceOpt, requestObjectOpt]))
            StatusTemporaryRedirect], session, generated.2⟩
      | .ok requestObject =>
        let requestObjectOpt := ("request", requestObject)
        ⟨pre ++ [.redirect (.authCodeURL (AuthCodeURL authenticator state
            [codeChallengeOpt, codeChallengeMethodOpt, nonceOpt, requestObjectOpt]))
            StatusTemporaryRedirect], session, generated.2⟩

/-- The function `LoginHandler`. After a failed `auth.GenerateNonce` the source calls
`http.Error` and goes on, with the empty string that the call returned as nonce. -/
def LoginHandler (app : WebApp) (r : LoginRequest) : Run :=
  let session := r.session
  match r.sessionErr with
  | some err => ⟨[.httpError err.Error StatusInternalServerError], session, app.jwtSigner⟩
  | none =>
    match GenerateState r.stateRead with
    | .panic => ⟨[.panic], session, app.jwtSigner⟩
    | .error err => ⟨[.httpError err.Error StatusInternalServerError], session, app.jwtSigner⟩
    | .ok state =>
      let session := session.set "state" (.str state)
      match GenerateCodeVerifierAndChallenge r.verifierRead with
      | .panic => ⟨[.panic], session, app.jwtSigner⟩
      | .error err =>
        ⟨[.httpError err.Error StatusInternalServerError], session, app.jwtSigner⟩
      | .ok (codeVerifier, codeChallenge) =>
        let session := session.set "code-verifier" (.str codeVerifier)
        match GenerateNonce r.nonceRead with
        | .panic => ⟨[.panic], session, app.jwtSigner⟩
        | .error err =>
          let nonce := ""
          let session := session.set "nonce" (.str nonce)
          loginSaveAndRedirect app r session state codeChallenge nonce
            [.httpError err.Error StatusInternalServerError]
        | .ok nonce =>
          let session := session.set "nonce" (.str nonce)
          loginSaveAndRedirect app r session state codeChallenge nonce []

/-! ## Sample values of the web application -/

/-- A signer that returns one compact serialization. -/
def sampleSigner : Signer :=
  fun _ => .ok "e30.e30.c2ln"

/-- An authenticator whose token endpoint returns one token, with the ID token `e30.e30.aWQ`,
and whose verifier accepts it as an ID token with the given nonce. -/
def sampleAuthenticator (nonce : String) : Authenticator :=
  { AuthURL := "https://helseid-sts.utvikling.nhn.no/connect/authorize"
    ClientID := ClientId
    RedirectURL := redirectLoginUrl
    Scopes := scopes
    Exchange := fun _ _ _ _ => .ok ⟨"e30.e30.YXQ", some "e30.e30.aWQ"⟩
    Verify := fun _ _ => .ok ⟨nonce, .ok "{}"⟩ }

/-- A web application that has its signer, whose authenticator is `sampleAuthenticator` and
whose session store saves every session. -/
def sampleApp (nonce : String) : WebApp :=
  { jwtSigner := some sampleSigner
    getJwtSigner := .ok sampleSigner
    HelseidMetadata :=
      { Issuer := "https://helseid-sts.utvikling.nhn.no"
        Authorization_endpoint := "https://helseid-sts.utvikling.nhn.no/connect/authorize"
        Token_endpoint := "https://helseid-sts.utvikling.nhn.no/connect/token"
        End_session_endpoint := "https://helseid-sts.utvikling.nhn.no/connect/endsession" }
    NewAuthenticator := .ok (sampleAuthenticator nonce)
    Save := fun _ => none }

/-- A session as a login leaves it: state `s1`, code verifier `v1` and nonce `n1`. -/
def sampleSession : Session :=
  ⟨[("nonce", .str "n1"), ("code-verifier", .str "v1"), ("state", .str "s1")]⟩

/-- A callback with the state `s1` and the code `c1`, on the session `sampleSession`. -/
def sampleCallback : CallbackRequest :=
  { session := sampleSession
    sessionErr := none
    state := "s1"
    code := "c1"
    jtiRead := ⟨List.replicate 18 7, none⟩
    now1 := 1500000000000
    now2 := 1500000000000
    now3 := 1500000000000 }

/-- A login on a fresh session; the reads of the random source give the bytes 7 for the state,
8 for the code verifier, 9 for the nonce and 7 for the `jti`. -/
def sampleLogin : LoginRequest :=
  { session := ⟨[]⟩
    sessionErr := none
    stateRead := ⟨List.replicate 48 7, none⟩
    verifierRead := ⟨List.replicate 48 8, none⟩
    nonceRead := ⟨List.replicate 48 9, none⟩
    jtiRead := ⟨List.replicate 18 7, none⟩
    now1 := 1500000000000
    now2 := 1500000000000 }

/-! # Theorems -/

/-! ## Lemmas on the encoder -/

theorem length_rawURLEncode (b : List Byte) :
    (rawURLEncode b).length = (8 * b.length + 5) / 6 := by
  induction b using rawURLEncode.induct with
  | case1 => rfl
  | case2 a => simp [rawURLEncode]
  | case3 a b => simp [rawURLEncode]
  | case4 a b c rest ih =>
    simp only [rawURLEncode, List.length_cons, ih]
    omega

theorem encodeURLAt_mem (i : Nat) (h : i < 64) : encodeURLAt i ∈ encodeURL.data := by
  unfold encodeURLAt
  have hl : i < encodeURL.data.length := by
    have : encodeURL.data.length = 64 := by decide
    omega
  rw [List.getD_eq_getElem _ _ hl]
  exact List.getElem_mem hl

theorem and_mask_lt (x : Nat) : x &&& 0x3F < 64 :=
  Nat.lt_succ_of_le Nat.and_le_right

theorem rawURLEncode_mem (b : List Byte) : ∀ c ∈ rawURLEncode b, c ∈ encodeURL.data := by
  induction b using rawURLEncode.induct with
  | case1 => simp [rawURLEncode]
  | case2 a =>
    intro c hc
    simp only [rawURLEncode, List.mem_cons, List.mem_singleton, List.not_mem_nil, or_false] at hc
    rcases hc with h | h <;> subst h <;> exact encodeURLAt_mem _ (and_mask_lt _)
  | case3 a b =>
    intro c hc
    simp only [rawURLEncode, List.mem_cons, List.mem_singleton, List.not_mem_nil, or_false] at hc
    rcases hc with h | h | h <;> subst h <;> exact encodeURLAt_mem _ (and_mask_lt _)
  | case4 a b c rest ih =>
    intro x hx
    simp only [rawURLEncode, List.mem_cons] at hx
    rcases hx with h | h | h | h | h
    · subst h; exact encodeURLAt_mem _ (and_mask_lt _)
    · subst h; exact encodeURLAt_mem _ (and_mask_lt _)
    · subst h; exact encodeURLAt_mem _ (and_mask_lt _)
    · subst h; exact encodeURLAt_mem _ (and_mask_lt _)
    · exact ih x h

theorem length_readInto (n : Nat) (r : RandRead) : (readInto n r).length = n := by
  simp only [readInto, List.length_append, List.length_take, List.length_replicate]
  omega

theorem length_le_encode_readInto (n : Nat) (r : RandRead) :
    n ≤ (rawURLEncode (readInto (byteLength n) r)).length := by
  rw [length_rawURLEncode, length_readInto]
  unfold byteLength
  omega

theorem encodeURL_isURLSafe : ∀ c ∈ encodeURL.data, isURLSafeChar c = true ∧ c ≠ '=' := by
  decide

theorem length_beBytes (n x : Nat) : (beBytes n x).length = n := by
  induction n with
  | zero => rfl
  | succ n ih => simp [beBytes, ih]

theorem length_sha256Sum (msg : List Byte) : (sha256Sum msg).length = 32 := by
  simp [sha256Sum, length_beBytes]

theorem sliceTo_encode_readInto (n : Nat) (r : RandRead) :
    sliceTo (encodeToString (readInto (byteLength n) r)) n =
      .ok (String.mk ((rawURLEncode (readInto (byteLength n) r)).take n)) := by
  have h := length_le_encode_readInto n r
  simp [sliceTo, encodeToString, String.length, h]

theorem generateRandomString_ok (n : Nat) (r : RandRead) (h : r.err = none) :
    generateRandomString n r =
      .ok (String.mk ((rawURLEncode (readInto (byteLength n) r)).take n)) := by
  simp only [generateRandomString, h]
  exact sliceTo_encode_readInto n r

theorem generateRandomString_error (n : Nat) (r : RandRead) (e : GoError) (h : r.err = some e) :
    generateRandomString n r = .error e := by
  simp only [generateRandomString, h]

/-! ## Test vectors of SHA-256 and of the PKCE challenge -/

set_option maxRecDepth 100000

/-- The digest of `abc`, as FIPS 180 gives it. -/
theorem sha256Sum_abc :
    sha256Sum (goBytes "abc") =
      [0xba, 0x78, 0x16, 0xbf, 0x8f, 0x01, 0xcf, 0xea, 0x41, 0x41, 0x40, 0xde, 0x5d, 0xae, 0x22,
        0x23, 0xb0, 0x03, 0x61, 0xa3, 0x96, 0x17, 0x7a, 0x9c, 0xb4, 0x10, 0xff, 0x61, 0xf2, 0x00,
        0x15, 0xad] := by
  decide

/-- The code challenge of the code verifier of RFC 7636, appendix B. -/
theorem challenge_rfc7636 :
    encodeToString (sha256Sum (goBytes "dBjftJeZ4CVP-mB92K27uhbUJU1p1r_wW1gFWFOEjXk")) =
      "E9Melhoa2OwvFrEMTJguCHaoeK1t8URWbuGJSstw-cM" := by
  decide

set_option maxRecDepth 512

/-! ## C1 -/

/-- C1: when the read of the random source succeeds, `generateRandomString(n)` of the web
application and of the machine-to-machine client return the same string `s`: it has exactly `n`
characters, all in the URL-safe base64 alphabet and none of them `=`; it is the first `n`
characters of the unpadded base64url encoding of the buffer `b` of `ceil(0.75 * n)` bytes; and
that encoding has at least `n` characters, so that `randomString[:length]` is in range. -/
theorem generateRandomString_spec (n : Nat) (r : RandRead) (h : r.err = none) :
    ∃ (s : String) (b : List Byte),
      generateRandomString n r = .ok s ∧ m2mGenerateRandomString n r = .ok s ∧
      s.length = n ∧ (∀ c ∈ s.data, isURLSafeChar c = true ∧ c ≠ '=') ∧
      b = readInto (byteLength n) r ∧ b.length = byteLength n ∧
      3 * n ≤ 4 * byteLength n ∧ 4 * byteLength n < 3 * n + 4 ∧
      n ≤ (encodeToString b).length ∧ s.data = (encodeToString b).data.take n := by
  refine ⟨String.mk ((rawURLEncode (readInto (byteLength n) r)).take n),
    readInto (byteLength n) r, generateRandomString_ok n r h, ?_, ?_, ?_, rfl,
    length_readInto _ r, ?_, ?_, ?_, rfl⟩
  · exact sliceTo_encode_readInto n r
  · have hl := length_le_encode_readInto n r
    simp [String.length, hl]
  · intro c hc
    exact encodeURL_isURLSafe c (rawURLEncode_mem _ c (List.mem_of_mem_take hc))
  · unfold byteLength; omega
  · unfold byteLength; omega
  · exact length_le_encode_readInto n r

/-- Witness of C1: a read of 18 bytes for a string of 24 characters. -/
theorem generateRandomString_spec_witness :
    ∃ (s : String) (b : List Byte),
      generateRandomString 24 ⟨List.replicate 18 7, none⟩ = .ok s ∧
      m2mGenerateRandomString 24 ⟨List.replicate 18 7, none⟩ = .ok s ∧
      s.length = 24 ∧ (∀ c ∈ s.data, isURLSafeChar c = true ∧ c ≠ '=') ∧
      b = readInto (byteLength 24) ⟨List.replicate 18 7, none⟩ ∧ b.length = byteLength 24 ∧
      3 * 24 ≤ 4 * byteLength 24 ∧ 4 * byteLength 24 < 3 * 24 + 4 ∧
      24 ≤ (encodeToString b).length ∧ s.data = (encodeToString b).data.take 24 :=
  generateRandomString_spec 24 ⟨List.replicate 18 7, none⟩ rfl

/-! ## C2 -/

theorem GenerateCodeVerifierAndChallenge_ok_err (r : RandRead) (p : String × String)
    (h : GenerateCodeVerifierAndChallenge r = .ok p) : r.err = none := by
  cases hr : r.err with
  | none => rfl
  | some e =>
    simp [GenerateCodeVerifierAndChallenge, generateRandomString_error _ r e hr] at h

/-- C2: a call of `GenerateCodeVerifierAndChallenge` succeeds exactly when the read of the
random source does, and then the pair it returns has a verifier of 64 characters and a challenge
of 43 characters that is the unpadded base64url encoding of the SHA-256 digest of the bytes of
the verifier. -/
theorem GenerateCodeVerifierAndChallenge_spec (r : RandRead) (h : r.err = none) :
    ∃ verifier challenge : String,
      GenerateCodeVerifierAndChallenge r = .ok (verifier, challenge) ∧
      challenge = encodeToString (sha256Sum (goBytes verifier)) ∧
      verifier.length = 64 ∧ challenge.length = 43 := by
  have hs := generateRandomString_ok codeVerifierLength r h
  have hl := length_le_encode_readInto codeVerifierLength r
  refine ⟨String.mk ((rawURLEncode (readInto (byteLength codeVerifierLength) r)).take
      codeVerifierLength), _, ?_, rfl, ?_, ?_⟩
  · simp only [GenerateCodeVerifierAndChallenge, hs]
  · simp only [String.length, List.length_take]
    exact Nat.min_eq_left hl
  · simp [encodeToString, String.length, length_rawURLEncode, length_sha256Sum]

/-- Witness of C2: a read of 48 bytes. -/
theorem GenerateCodeVerifierAndChallenge_spec_witness :
    ∃ verifier challenge : String,
      GenerateCodeVerifierAndChallenge ⟨List.replicate 48 7, none⟩ = .ok (verifier, challenge) ∧
      challenge = encodeToString (sha256Sum (goBytes verifier)) ∧
      verifier.length = 64 ∧ challenge.length = 43 :=
  GenerateCodeVerifierAndChallenge_spec ⟨List.replicate 48 7, none⟩ rfl

/-! ## Lemmas on the validation of a token -/

theorem Audience.Contains_iff (s : List String) (v : String) :
    Audience.Contains s v = true ↔ v ∈ s := by
  induction s with
  | nil => simp [Audience.Contains]
  | cons a s ih =>
    by_cases h : a = v
    · simp [Audience.Contains, h]
    · have h2 : ¬ v = a := fun e => h e.symm
      simp [Audience.Contains, h, h2, ih]

theorem not_IsZero_ofNat (now : Nat) : Time.IsZero (now : Int) = false := by
  have h : ((now : Int) == -62135596800 * 1000000000) = false := by
    rw [beq_eq_false_iff_ne]
    omega
  simp [Time.IsZero, h]

theorem any_before_iff (d : Option NumericDate) (now : Nat) :
    (d.any fun n => Time.Before (Time.Add (now : Int) 0) (NumericDate.Time n)) = false ↔
      ∀ n, d = some n → NumericDate.Time n ≤ (now : Int) := by
  cases d with
  | none => simp
  | some n => simp [Time.Before, Time.Add]

theorem any_after_iff (d : Option NumericDate) (now : Nat) :
    (d.any fun n => Time.After (Time.Add (now : Int) (-0)) (NumericDate.Time n)) = false ↔
      ∀ n, d = some n → (now : Int) ≤ NumericDate.Time n := by
  cases d with
  | none => simp
  | some n => simp [Time.After, Time.Add]

theorem wrapInt64_eq (x : Int) (h1 : -9223372036854775808 ≤ x)
    (h2 : x ≤ 9223372036854775807) : wrapInt64 x = x := by
  unfold wrapInt64
  omega

theorem wrapInt64_le (x : Int) (h1 : -9223372036854775808 ≤ x) : wrapInt64 x ≤ x := by
  unfold wrapInt64
  omega

/-- A date in range is converted to its own second: the count does not wrap. -/
theorem NumericDate.Time_of_inRange (n : Int) (h : NumericDate.inRange n) :
    NumericDate.Time n = n * 1000000000 := by
  have h1 : (-9223372036854775808 : Int) ≤ n := h.1
  have h2 : (n : Int) ≤ (9223371974719179007 : Int) := h.2
  have hw : wrapInt64 (n + unixToInternal) = n + unixToInternal :=
    wrapInt64_eq _ (by unfold unixToInternal; omega) (by unfold unixToInternal; omega)
  unfold NumericDate.Time
  rw [hw]
  simp

/-- The conversion of an `int64` date never gives a later time than the date. -/
theorem NumericDate.Time_le (n : Int) (h : -9223372036854775808 ≤ n) :
    NumericDate.Time n ≤ n * 1000000000 := by
  have h1 : (-9223372036854775808 : Int) ≤ n := h
  have hw : wrapInt64 (n + unixToInternal) ≤ n + unixToInternal :=
    wrapInt64_le _ (by unfold unixToInternal; omega)
  unfold NumericDate.Time
  have h2 : wrapInt64 (n + unixToInternal) - unixToInternal ≤ n := by
    have := sub_le_sub_right hw unixToInternal
    simpa using this
  exact Int.mul_le_mul_of_nonneg_right h2 (by decide)

theorem nonneg_of_clock_lt (now : Nat) (e : Int) (h : (now : Int) < e * 1000000000) :
    (0 : Int) ≤ e := by
  by_contra hneg
  have hneg2 : e < 0 := not_le.mp hneg
  have h0 : (0 : Int) ≤ (now : Int) := Int.ofNat_nonneg now
  have : e * 1000000000 < 0 := Int.mul_neg_of_neg_of_pos hneg2 (by decide)
  linarith

/-- The expectation that the resource server passes to `ValidateWithLeeway`. -/
theorem ValidateWithLeeway_none_iff (c : Claims) (issuer : String) (now : Nat) :
    c.ValidateWithLeeway
        { Issuer := issuer, Subject := "", Audience := [apiName], ID := "", Time := (now : Int) }
        0 = none ↔
      (issuer = "" ∨ issuer = c.Issuer) ∧ apiName ∈ c.Audience ∧
      (∀ nbf, c.NotBefore = some nbf → NumericDate.Time nbf ≤ (now : Int)) ∧
      (∀ exp, c.Expiry = some exp → (now : Int) ≤ NumericDate.Time exp) ∧
      (∀ iat, c.IssuedAt = some iat → NumericDate.Time iat ≤ (now : Int)) := by
  rw [← any_before_iff c.NotBefore now, ← any_after_iff c.Expiry now,
    ← any_before_iff c.IssuedAt now, ← Audience.Contains_iff]
  simp only [Claims.ValidateWithLeeway, not_IsZero_ofNat, audienceMissing]
  by_cases h1 : issuer = "" <;> by_cases h2 : issuer = c.Issuer <;>
    cases hc : Audience.Contains c.Audience apiName <;>
    cases h3 : (c.NotBefore.any fun n =>
      Time.Before (Time.Add (now : Int) 0) (NumericDate.Time n)) <;>
    cases h4 : (c.Expiry.any fun n =>
      Time.After (Time.Add (now : Int) (-0)) (NumericDate.Time n)) <;>
    cases h5 : (c.IssuedAt.any fun n =>
      Time.Before (Time.Add (now : Int) 0) (NumericDate.Time n)) <;>
    simp [h1, h2, hc]

theorem tryJWKS_key_iff (hs : List Header) (jwks : JSONWebKeySet) (k : Option PublicKey) :
    tryJWKS hs jwks = .key k ↔
      firstKeyID hs ≠ "" ∧ ∃ key, (jwks.Key (firstKeyID hs)).head? = some key ∧ key.Key = k := by
  unfold tryJWKS
  by_cases h : firstKeyID hs = ""
  · simp [h]
  · cases hk : jwks.Key (firstKeyID hs) with
    | nil => simp [h, hk]
    | cons key rest => simp [h, hk]

theorem Claims_ok_iff (t : JSONWebToken) (jwks : JSONWebKeySet) (c : Claims) :
    t.Claims jwks = .ok c ↔
      ∃ pk, tryJWKS t.Headers jwks = .key (some pk) ∧ t.verifiesUnder pk = true ∧
        t.claims = some c := by
  unfold JSONWebToken.Claims
  cases hk : tryJWKS t.Headers jwks with
  | keySet s => simp
  | key k =>
    cases k with
    | none => simp
    | some pk =>
      cases hv : t.verifiesUnder pk <;> cases hc : t.claims <;> simp [hv]

theorem validateToken_ok_iff (md : authorizationServerMetadata) (now : Nat)
    (token t : JSONWebToken) :
    validateToken md now token = .ok t ↔
      t = token ∧ ∃ c, token.Claims md.Jwks = .ok c ∧
        c.ValidateWithLeeway
          { Issuer := md.Issuer, Subject := "", Audience := [apiName], ID := "",
            Time := (now : Int) } 0 = none ∧
        c.Audience.length ≤ 1 := by
  unfold validateToken
  cases hc : token.Claims md.Jwks with
  | error e => simp
  | ok c =>
    cases hv : c.ValidateWithLeeway
        { Issuer := md.Issuer, Subject := "", Audience := [apiName], ID := "",
          Time := (now : Int) } 0 with
    | some e => simp [hv]
    | none =>
      by_cases hl : c.Audience.length > 1
      · simp [hv, hl]
      · simp [hv, hl]
        constructor
        · intro h; exact ⟨h.symm, by omega⟩
        · intro h; exact h.1.symm

theorem getToken_ok_iff (P : String → Except GoError JSONWebToken)
    (md : authorizationServerMetadata) (now : Nat) (r : Request) (t : JSONWebToken) :
    getTokenFromAuthHeaderAndValidate P md now r = .ok t ↔
      ∃ tokenString, tokenStringOfHeader r = .ok tokenString ∧ P tokenString = .ok t ∧
        validateToken md now t = .ok t := by
  unfold getTokenFromAuthHeaderAndValidate
  cases hh : tokenStringOfHeader r with
  | error e => simp
  | ok ts =>
    cases hp : P ts with
    | error e => simp [hp]
    | ok token =>
      simp only [Except.ok.injEq, exists_eq_left', hp]
      constructor
      · intro h
        have ht := ((validateToken_ok_iff md now token t).1 h).1
        subst ht
        exact ⟨rfl, h⟩
      · rintro ⟨rfl, h⟩
        exact h

theorem list_eq_singleton_of_mem {α : Type} (l : List α) (a : α) (hm : a ∈ l)
    (hl : l.length ≤ 1) : l = [a] := by
  match l, hm, hl with
  | [b], hm, _ =>
    simp only [List.mem_singleton] at hm
    rw [hm]
  | _ :: _ :: _, _, hl => simp at hl

theorem fieldsLoop_noSpace (f rest cur : List Char) (hf : ∀ c ∈ f, isSpace c = false) :
    fieldsLoop (f ++ rest) cur = fieldsLoop rest (f.reverse ++ cur) := by
  induction f generalizing cur with
  | nil => rfl
  | cons c f ih =>
    have hc : isSpace c = false := hf c (List.mem_cons_self _ _)
    have hf2 : ∀ x ∈ f, isSpace x = false := fun x hx => hf x (List.mem_cons_of_mem _ hx)
    simp [fieldsLoop, hc, ih _ hf2]

/-- The header `Bearer <token>` with a non-empty token string without white space passes the
header step with that token string. -/
theorem tokenStringOfHeader_bearer (ts : String) (hne : ts ≠ "")
    (hs : ∀ c ∈ ts.data, isSpace c = false) :
    tokenStringOfHeader ⟨"Bearer " ++ ts⟩ = .ok ts := by
  have hd : ts.data ≠ [] := fun h => hne (by cases ts; simp_all)
  have hf : Fields ("Bearer " ++ ts) = ["Bearer", ts] := by
    have h1 : ("Bearer " ++ ts).data = ['B', 'e', 'a', 'r', 'e', 'r'] ++ (' ' :: ts.data) := by
      simp [String.data_append]
    have h2 : ∀ c ∈ ['B', 'e', 'a', 'r', 'e', 'r'], isSpace c = false := by decide
    have h3 := fieldsLoop_noSpace ts.data [] [] hs
    simp only [List.append_nil] at h3
    unfold Fields
    rw [h1, fieldsLoop_noSpace _ _ _ h2]
    have h4 : isSpace ' ' = true := by decide
    simp [fieldsLoop, h4, h3, hd]
  have hb : ToLower "Bearer" = "bearer" := by decide
  simp [tokenStringOfHeader, hf, hb]

/-! ## C3 -/

theorem listedValid_sample (kid : String) (md : authorizationServerMetadata) (c : Claims)
    (nbf exp : NumericDate) (hk : ∃ key ∈ md.Jwks.Keys, key.Key = some 1)
    (hi : c.Issuer = md.Issuer) (ha : c.Audience = [apiName]) (hn : c.NotBefore = some nbf)
    (he : c.Expiry = some exp)
    (hw : nbf * 1000000000 ≤ ((1500000000000 : Nat) : Int) ∧
      ((1500000000000 : Nat) : Int) < exp * 1000000000) :
    listedValid (sampleParse (sampleToken kid c .absent)) md 1500000000000
      ⟨"Bearer e30.e30.c2ln"⟩ (sampleToken kid c .absent) := by
  obtain ⟨key, hmem, hkey⟩ := hk
  exact ⟨"e30.e30.c2ln", c, nbf, exp, rfl, rfl, ⟨key, hmem, 1, hkey, rfl⟩, rfl, hi, ha, hn, he,
    hw.1, hw.2⟩

/-- C3, counterexample: four requests that meet the conditions of the claim at second 1500,
with `[nbf, exp) = [1000, 2000)`, and are rejected. The first token says it was issued at second
3000: `ErrIssuedInTheFuture`. The second has no key id: no key is resolved and the verification
fails with `ErrUnsupportedKeyType`. The third has the key id of two cached keys, and its
signature verifies under the second of them: the first is tried, `ErrCryptoFailure`. The fourth
expires at second `2^63 - 1024`, which `time.Unix` wraps to the past: `ErrExpired`. -/
theorem listed_valid_token_rejected :
    (listedValid
        (sampleParse (sampleToken "k1" { sampleClaims with IssuedAt := some 3000 } .absent))
        sampleMetadata 1500000000000 ⟨"Bearer e30.e30.c2ln"⟩
        (sampleToken "k1" { sampleClaims with IssuedAt := some 3000 } .absent) ∧
      getTokenFromAuthHeaderAndValidate
          (sampleParse (sampleToken "k1" { sampleClaims with IssuedAt := some 3000 } .absent))
          sampleMetadata 1500000000000 ⟨"Bearer e30.e30.c2ln"⟩ =
        .error .ErrIssuedInTheFuture) ∧
    (listedValid (sampleParse (sampleToken "" sampleClaims .absent))
        sampleMetadata 1500000000000 ⟨"Bearer e30.e30.c2ln"⟩
        (sampleToken "" sampleClaims .absent) ∧
      getTokenFromAuthHeaderAndValidate (sampleParse (sampleToken "" sampleClaims .absent))
          sampleMetadata 1500000000000 ⟨"Bearer e30.e30.c2ln"⟩ =
        .error .ErrUnsupportedKeyType) ∧
    (listedValid (sampleParse (sampleToken "k1" sampleClaims .absent))
        { sampleMetadata with Jwks := ⟨[⟨some 2, "k1"⟩, ⟨some 1, "k1"⟩]⟩ } 1500000000000
        ⟨"Bearer e30.e30.c2ln"⟩ (sampleToken "k1" sampleClaims .absent) ∧
      getTokenFromAuthHeaderAndValidate (sampleParse (sampleToken "k1" sampleClaims .absent))
          { sampleMetadata with Jwks := ⟨[⟨some 2, "k1"⟩, ⟨some 1, "k1"⟩]⟩ } 1500000000000
          ⟨"Bearer e30.e30.c2ln"⟩ =
        .error .ErrCryptoFailure) ∧
    (listedValid
        (sampleParse
          (sampleToken "k1" { sampleClaims with Expiry := some 9223372036854774784 } .absent))
        sampleMetadata 1500000000000 ⟨"Bearer e30.e30.c2ln"⟩
        (sampleToken "k1" { sampleClaims with Expiry := some 9223372036854774784 } .absent) ∧
      getTokenFromAuthHeaderAndValidate
          (sampleParse
            (sampleToken "k1" { sampleClaims with Expiry := some 9223372036854774784 } .absent))
          sampleMetadata 1500000000000 ⟨"Bearer e30.e30.c2ln"⟩ =
        .error .ErrExpired) := by
  refine ⟨⟨?_, rfl⟩, ⟨?_, rfl⟩, ⟨?_, rfl⟩, ⟨?_, rfl⟩⟩
  · exact listedValid_sample "k1" sampleMetadata _ 1000 2000 ⟨⟨some 1, "k1"⟩, by decide, rfl⟩
      rfl rfl rfl rfl (by decide)
  · exact listedValid_sample "" sampleMetadata _ 1000 2000 ⟨⟨some 1, "k1"⟩, by decide, rfl⟩
      rfl rfl rfl rfl (by decide)
  · exact listedValid_sample "k1" _ _ 1000 2000 ⟨⟨some 1, "k1"⟩, by decide, rfl⟩
      rfl rfl rfl rfl (by decide)
  · exact listedValid_sample "k1" sampleMetadata _ 1000 9223372036854774784
      ⟨⟨some 1, "k1"⟩, by decide, rfl⟩ rfl rfl rfl rfl (by decide)

/-- C3, amended: for every request whose Authorization header is `Bearer <token>` with a
non-empty token string without white space that parses as a signed JWT, whose key id is not
empty and selects a first cached key under which the signature verifies, whose payload decodes
with the cached issuer, the single audience `apiName`, a time in `[nbf, exp)` with `exp` at most
`2^63 - 1 - 62135596800 = 9223371974719179007` (a later date wraps in `time.Unix`), and an
`iat` (when the token has one) that is not after the current time,
`getTokenFromAuthHeaderAndValidate` returns the token with no error. The dates `nbf` and `iat`
are `int64` values, as a `NumericDate` is. -/
theorem valid_token_accepted (P : String → Except GoError JSONWebToken)
    (md : authorizationServerMetadata) (now : Nat) (ts : String) (token : JSONWebToken)
    (c : Claims) (key : JSONWebKey) (pk : PublicKey) (nbf exp : NumericDate)
    (hne : ts ≠ "") (hs : ∀ ch ∈ ts.data, isSpace ch = false)
    (hparse : P ts = .ok token)
    (hkid : firstKeyID token.Headers ≠ "")
    (hkey : (md.Jwks.Key (firstKeyID token.Headers)).head? = some key)
    (hpk : key.Key = some pk) (hsig : token.verifiesUnder pk = true)
    (hclaims : token.claims = some c)
    (hiss : c.Issuer = md.Issuer) (haud : c.Audience = [apiName])
    (hnbf : c.NotBefore = some nbf) (hexp : c.Expiry = some exp)
    (hwin : nbf * 1000000000 ≤ (now : Int) ∧ (now : Int) < exp * 1000000000)
    (hnbf64 : -9223372036854775808 ≤ nbf)
    (hexpr : exp ≤ 9223371974719179007)
    (hiat : ∀ iat, c.IssuedAt = some iat →
      -9223372036854775808 ≤ iat ∧ iat * 1000000000 ≤ (now : Int)) :
    getTokenFromAuthHeaderAndValidate P md now ⟨"Bearer " ++ ts⟩ = .ok token := by
  rw [getToken_ok_iff]
  refine ⟨ts, tokenStringOfHeader_bearer ts hne hs, hparse, ?_⟩
  rw [validateToken_ok_iff]
  refine ⟨rfl, c, ?_, ?_, by simp [haud]⟩
  · rw [Claims_ok_iff]
    exact ⟨pk, (tryJWKS_key_iff _ _ _).2 ⟨hkid, key, hkey, hpk⟩, hsig, hclaims⟩
  · rw [ValidateWithLeeway_none_iff]
    refine ⟨Or.inr hiss.symm, by simp [haud], ?_, ?_, ?_⟩
    · intro n hn
      rw [hnbf] at hn
      cases hn
      exact le_trans (NumericDate.Time_le nbf hnbf64) hwin.1
    · intro n hn
      rw [hexp] at hn
      cases hn
      have hpos : (0 : Int) ≤ exp := nonneg_of_clock_lt now exp hwin.2
      rw [NumericDate.Time_of_inRange exp ⟨le_trans (by decide) hpos, hexpr⟩]
      exact le_of_lt hwin.2
    · intro n hn
      exact le_trans (NumericDate.Time_le n (hiat n hn).1) (hiat n hn).2

/-- Witness of C3: the sample token at second 1500. -/
theorem valid_token_accepted_witness :
    getTokenFromAuthHeaderAndValidate (sampleParse (sampleToken "k1" sampleClaims .absent))
        sampleMetadata 1500000000000 ⟨"Bearer " ++ "e30.e30.c2ln"⟩ =
      .ok (sampleToken "k1" sampleClaims .absent) :=
  valid_token_accepted (sampleParse (sampleToken "k1" sampleClaims .absent)) sampleMetadata
    1500000000000 "e30.e30.c2ln" (sampleToken "k1" sampleClaims .absent) sampleClaims
    ⟨some 1, "k1"⟩ 1 1000 2000 (by decide) (by decide) rfl (by decide) (by decide) rfl rfl rfl
    rfl rfl rfl rfl (by decide) (by decide) (by decide) (by decide)

/-! ## C4 -/

/-- C4, counterexample: with the empty cached issuer, a token of the issuer
`https://attacker.example` is returned without error. -/
theorem empty_cached_issuer_accepts_any_issuer :
    getTokenFromAuthHeaderAndValidate
        (sampleParse
          (sampleToken "k1" { sampleClaims with Issuer := "https://attacker.example" } .absent))
        { sampleMetadata with Issuer := "" } 1500000000000 ⟨"Bearer e30.e30.c2ln"⟩ =
      .ok (sampleToken "k1" { sampleClaims with Issuer := "https://attacker.example" } .absent) ∧
    (sampleToken "k1" { sampleClaims with Issuer := "https://attacker.example" } .absent).claims
      = some { sampleClaims with Issuer := "https://attacker.example" } ∧
    ({ sampleClaims with Issuer := "https://attacker.example" } : Claims).Issuer ≠
      ({ sampleMetadata with Issuer := "" } : authorizationServerMetadata).Issuer := by
  refine ⟨rfl, rfl, by decide⟩

/-- C4, amended: whenever `getTokenFromAuthHeaderAndValidate` returns a token without error,
the signature of the token was verified under a cached key (the first one with the key id of the
token), its audience claim is exactly the one-element list `[apiName]`, and its issuer claim
equals the cached issuer provided that the cached issuer is not empty. -/
theorem accepted_token_checked (P : String → Except GoError JSONWebToken)
    (md : authorizationServerMetadata) (now : Nat) (r : Request) (token : JSONWebToken)
    (h : getTokenFromAuthHeaderAndValidate P md now r = .ok token) :
    ∃ (c : Claims) (key : JSONWebKey) (pk : PublicKey),
      token.claims = some c ∧ key ∈ md.Jwks.Keys ∧ key.KeyID = firstKeyID token.Headers ∧
      firstKeyID token.Headers ≠ "" ∧
      (md.Jwks.Key (firstKeyID token.Headers)).head? = some key ∧
      key.Key = some pk ∧ token.verifiesUnder pk = true ∧
      (md.Issuer ≠ "" → c.Issuer = md.Issuer) ∧ c.Audience = [apiName] := by
  obtain ⟨ts, -, -, hv⟩ := (getToken_ok_iff P md now r token).1 h
  obtain ⟨-, c, hc, hval, hlen⟩ := (validateToken_ok_iff md now token token).1 hv
  obtain ⟨pk, hk, hsig, hclaims⟩ := (Claims_ok_iff token md.Jwks c).1 hc
  obtain ⟨hkid, key, hkey, hpk⟩ := (tryJWKS_key_iff _ _ _).1 hk
  obtain ⟨hiss, haud, -⟩ := (ValidateWithLeeway_none_iff c md.Issuer now).1 hval
  have hmem : key ∈ md.Jwks.Key (firstKeyID token.Headers) := List.mem_of_mem_head? hkey
  have hmem2 := List.mem_filter.1 hmem
  refine ⟨c, key, pk, hclaims, hmem2.1, by simpa using hmem2.2, hkid, hkey, hpk, hsig, ?_,
    list_eq_singleton_of_mem _ _ haud hlen⟩
  intro hne
  rcases hiss with h1 | h1
  · exact absurd h1 hne
  · exact h1.symm

/-- Witness of C4: the sample token at second 1500. -/
theorem accepted_token_checked_witness :
    ∃ (c : Claims) (key : JSONWebKey) (pk : PublicKey),
      (sampleToken "k1" sampleClaims .absent).claims = some c ∧
      key ∈ sampleMetadata.Jwks.Keys ∧
      key.KeyID = firstKeyID (sampleToken "k1" sampleClaims .absent).Headers ∧
      firstKeyID (sampleToken "k1" sampleClaims .absent).Headers ≠ "" ∧
      (sampleMetadata.Jwks.Key
        (firstKeyID (sampleToken "k1" sampleClaims .absent).Headers)).head? = some key ∧
      key.Key = some pk ∧ (sampleToken "k1" sampleClaims .absent).verifiesUnder pk = true ∧
      (sampleMetadata.Issuer ≠ "" → c.Issuer = sampleMetadata.Issuer) ∧
      c.Audience = [apiName] :=
  accepted_token_checked (sampleParse (sampleToken "k1" sampleClaims .absent)) sampleMetadata
    1500000000000 ⟨"Bearer e30.e30.c2ln"⟩ (sampleToken "k1" sampleClaims .absent) rfl

/-! ## C5 -/

/-- C5, counterexample: a token that expires at second 2000 is returned without error when the
clock reads second 2000 exactly; and a token that is not valid before second `2^63 - 1024`,
which `time.Unix` wraps to the past, is returned without error at second 1500. -/
theorem token_accepted_outside_window :
    (sampleClaims.Expiry = some 2000 ∧
      ((2000000000000 : Nat) : Int) = 2000 * 1000000000 ∧
      getTokenFromAuthHeaderAndValidate (sampleParse (sampleToken "k1" sampleClaims .absent))
          sampleMetadata 2000000000000 ⟨"Bearer e30.e30.c2ln"⟩ =
        .ok (sampleToken "k1" sampleClaims .absent)) ∧
    (({ sampleClaims with NotBefore := some 9223372036854774784 } : Claims).NotBefore =
        some 9223372036854774784 ∧
      ((1500000000000 : Nat) : Int) < 9223372036854774784 * 1000000000 ∧
      getTokenFromAuthHeaderAndValidate
          (sampleParse
            (sampleToken "k1" { sampleClaims with NotBefore := some 9223372036854774784 }
              .absent))
          sampleMetadata 1500000000000 ⟨"Bearer e30.e30.c2ln"⟩ =
        .ok (sampleToken "k1" { sampleClaims with NotBefore := some 9223372036854774784 }
          .absent)) := by
  refine ⟨⟨rfl, by decide, rfl⟩, ⟨rfl, by decide, rfl⟩⟩

/-- C5, amended: with zero leeway, `getTokenFromAuthHeaderAndValidate` returns a token only if
`nbf <= now <= exp` and `iat <= now`, for each of the three claims that the token has, `nbf`
and `iat` being dates that `time.Unix` converts without overflow (`int64` values of at most
`2^63 - 1 - 62135596800` seconds) and `exp` an `int64` value: a token with `now < nbf`, a
token with `now > exp` and a token with `iat > now` are rejected. -/
theorem accepted_token_time (P : String → Except GoError JSONWebToken)
    (md : authorizationServerMetadata) (now : Nat) (r : Request) (token : JSONWebToken)
    (c : Claims) (h : getTokenFromAuthHeaderAndValidate P md now r = .ok token)
    (hc : token.claims = some c) :
    (∀ nbf, c.NotBefore = some nbf → NumericDate.inRange nbf →
      nbf * 1000000000 ≤ (now : Int)) ∧
    (∀ exp, c.Expiry = some exp → -9223372036854775808 ≤ exp →
      (now : Int) ≤ exp * 1000000000) ∧
    (∀ iat, c.IssuedAt = some iat → NumericDate.inRange iat →
      iat * 1000000000 ≤ (now : Int)) := by
  obtain ⟨ts, -, -, hv⟩ := (getToken_ok_iff P md now r token).1 h
  obtain ⟨-, c2, hc2, hval, -⟩ := (validateToken_ok_iff md now token token).1 hv
  obtain ⟨pk, -, -, hclaims⟩ := (Claims_ok_iff token md.Jwks c2).1 hc2
  have hcc : c2 = c := by
    rw [hc] at hclaims
    exact (Option.some.inj hclaims).symm
  subst hcc
  obtain ⟨-, -, h1, h2, h3⟩ := (ValidateWithLeeway_none_iff c2 md.Issuer now).1 hval
  refine ⟨?_, ?_, ?_⟩
  · intro nbf hn hr
    rw [← NumericDate.Time_of_inRange nbf hr]
    exact h1 nbf hn
  · intro exp he hr
    exact le_trans (h2 exp he) (NumericDate.Time_le exp hr)
  · intro iat hi hr
    rw [← NumericDate.Time_of_inRange iat hr]
    exact h3 iat hi

/-- Witness of C5: the sample token at second 1500. -/
theorem accepted_token_time_witness :
    (∀ nbf, sampleClaims.NotBefore = some nbf → NumericDate.inRange nbf →
      nbf * 1000000000 ≤ ((1500000000000 : Nat) : Int)) ∧
    (∀ exp, sampleClaims.Expiry = some exp → -9223372036854775808 ≤ exp →
      ((1500000000000 : Nat) : Int) ≤ exp * 1000000000) ∧
    (∀ iat, sampleClaims.IssuedAt = some iat → NumericDate.inRange iat →
      iat * 1000000000 ≤ ((1500000000000 : Nat) : Int)) :=
  accepted_token_time (sampleParse (sampleToken "k1" sampleClaims .absent)) sampleMetadata
    1500000000000 ⟨"Bearer e30.e30.c2ln"⟩ (sampleToken "k1" sampleClaims .absent) sampleClaims
    rfl rfl

/-! ## C6 -/

/-- C6, counterexample: a token with the two audiences `a` and `b`, and otherwise the sample
claims, fails with `ErrInvalidAudience`, which is not the error for several audiences. -/
theorem two_foreign_audiences_invalid_audience :
    ({ sampleClaims with Audience := ["a", "b"] } : Claims).Audience.length > 1 ∧
    getTokenFromAuthHeaderAndValidate
        (sampleParse (sampleToken "k1" { sampleClaims with Audience := ["a", "b"] } .absent))
        sampleMetadata 1500000000000 ⟨"Bearer e30.e30.c2ln"⟩ =
      .error .ErrInvalidAudience ∧
    GoError.ErrInvalidAudience ≠ .new "access token contained multiple audiences" := by
  refine ⟨by decide, rfl, by decide⟩

/-- C6, amended: for every token whose audience claim has more than one value,
`getTokenFromAuthHeaderAndValidate` fails; the error is the one for several audiences
(`access token contained multiple audiences`) when the signature verifies and the issuer, the
presence of `apiName` among the audiences, `nbf`, `exp` and `iat` pass the validation. -/
theorem multiple_audiences_rejected (P : String → Except GoError JSONWebToken)
    (md : authorizationServerMetadata) (now : Nat) (r : Request) (ts : String)
    (token : JSONWebToken) (c : Claims)
    (hh : tokenStringOfHeader r = .ok ts) (hp : P ts = .ok token)
    (hc : token.claims = some c) (hl : c.Audience.length > 1) :
    (∃ e, getTokenFromAuthHeaderAndValidate P md now r = .error e) ∧
    (token.Claims md.Jwks = .ok c →
      c.ValidateWithLeeway
        { Issuer := md.Issuer, Subject := "", Audience := [apiName], ID := "",
          Time := (now : Int) } 0 = none →
      getTokenFromAuthHeaderAndValidate P md now r =
        .error (.new "access token contained multiple audiences")) := by
  have hg : getTokenFromAuthHeaderAndValidate P md now r = validateToken md now token := by
    simp [getTokenFromAuthHeaderAndValidate, hh, hp]
  rw [hg]
  constructor
  · cases hv : validateToken md now token with
    | error e => exact ⟨e, rfl⟩
    | ok t =>
      obtain ⟨-, c2, hc2, -, hlen⟩ := (validateToken_ok_iff md now token t).1 hv
      obtain ⟨pk, -, -, hclaims⟩ := (Claims_ok_iff token md.Jwks c2).1 hc2
      rw [hc] at hclaims
      cases hclaims
      omega
  · intro h1 h2
    simp [validateToken, h1, h2, hl, multipleAudiencesText]

/-- Witness of C6: the sample token with the audiences `apiName` and `b`. -/
theorem multiple_audiences_rejected_witness :
    (∃ e, getTokenFromAuthHeaderAndValidate
        (sampleParse (sampleToken "k1" { sampleClaims with Audience := [apiName, "b"] } .absent))
        sampleMetadata 1500000000000 ⟨"Bearer e30.e30.c2ln"⟩ = .error e) ∧
    ((sampleToken "k1" { sampleClaims with Audience := [apiName, "b"] } .absent).Claims
        sampleMetadata.Jwks = .ok { sampleClaims with Audience := [apiName, "b"] } →
      ({ sampleClaims with Audience := [apiName, "b"] } : Claims).ValidateWithLeeway
        { Issuer := sampleMetadata.Issuer, Subject := "", Audience := [apiName], ID := "",
          Time := ((1500000000000 : Nat) : Int) } 0 = none →
      getTokenFromAuthHeaderAndValidate
        (sampleParse (sampleToken "k1" { sampleClaims with Audience := [apiName, "b"] } .absent))
        sampleMetadata 1500000000000 ⟨"Bearer e30.e30.c2ln"⟩ =
        .error (.new "access token contained multiple audiences")) :=
  multiple_audiences_rejected
    (sampleParse (sampleToken "k1" { sampleClaims with Audience := [apiName, "b"] } .absent))
    sampleMetadata 1500000000000 ⟨"Bearer e30.e30.c2ln"⟩ "e30.e30.c2ln"
    (sampleToken "k1" { sampleClaims with Audience := [apiName, "b"] } .absent)
    { sampleClaims with Audience := [apiName, "b"] } rfl rfl rfl (by decide)

/-! ## Lemmas on the header step -/

theorem fieldsLoop_blank (w rest : List Char) (hw : isBlank w) :
    fieldsLoop (w ++ rest) [] = fieldsLoop rest [] := by
  induction w with
  | nil => rfl
  | cons c w ih =>
    have hc : isSpace c = true := hw c (List.mem_cons_self _ _)
    have hw2 : isBlank w := fun x hx => hw x (List.mem_cons_of_mem _ hx)
    simp [fieldsLoop, hc, ih hw2]

theorem fieldsLoop_space (c : Char) (rest cur : List Char) (hc : isSpace c = true)
    (hcur : cur ≠ []) :
    fieldsLoop (c :: rest) cur = String.mk cur.reverse :: fieldsLoop rest [] := by
  simp [fieldsLoop, hc, hcur]

theorem fieldsLoop_ne_nil (l cur : List Char) (hcur : cur ≠ []) : fieldsLoop l cur ≠ [] := by
  induction l generalizing cur with
  | nil => simp [fieldsLoop, hcur]
  | cons c l ih =>
    cases hc : isSpace c with
    | true => simp [fieldsLoop, hc, hcur]
    | false =>
      simp only [fieldsLoop, hc, Bool.false_eq_true, if_false]
      exact ih (c :: cur) (List.cons_ne_nil _ _)

theorem isBlank_of_fieldsLoop_nil (l : List Char) (h : fieldsLoop l [] = []) : isBlank l := by
  induction l with
  | nil => intro c hc; simp at hc
  | cons c l ih =>
    cases hc : isSpace c with
    | true =>
      simp only [fieldsLoop, hc, if_true, List.isEmpty_nil] at h
      intro x hx
      rcases List.mem_cons.1 hx with rfl | hx
      · exact hc
      · exact ih h x hx
    | false =>
      simp only [fieldsLoop, hc, Bool.false_eq_true, if_false] at h
      exact absurd h (fieldsLoop_ne_nil l [c] (List.cons_ne_nil _ _))

/-- The first field when a field is being read: it ends at the end of the string or at the
first white space. -/
theorem fieldsLoop_cons_of_cur (l cur : List Char) (x : String) (xs : List String)
    (hcur : cur ≠ []) (h : fieldsLoop l cur = x :: xs) :
    ∃ f rest, l = f ++ rest ∧ (∀ c ∈ f, isSpace c = false) ∧ x = String.mk (cur.reverse ++ f) ∧
      ((rest = [] ∧ xs = []) ∨
        ∃ c rest2, rest = c :: rest2 ∧ isSpace c = true ∧ xs = fieldsLoop rest2 []) := by
  induction l generalizing cur with
  | nil =>
    simp only [fieldsLoop, List.isEmpty_eq_true, hcur, if_false, List.cons.injEq] at h
    exact ⟨[], [], rfl, by simp, by simp [h.1], Or.inl ⟨rfl, h.2.symm⟩⟩
  | cons c l ih =>
    cases hc : isSpace c with
    | true =>
      rw [fieldsLoop_space c l cur hc hcur] at h
      simp only [List.cons.injEq] at h
      exact ⟨[], c :: l, rfl, by simp, by simp [h.1], Or.inr ⟨c, l, rfl, hc, h.2.symm⟩⟩
    | false =>
      simp only [fieldsLoop, hc, Bool.false_eq_true, if_false] at h
      obtain ⟨f, rest, hl, hf, hx, hrest⟩ := ih (c :: cur) (List.cons_ne_nil _ _) h
      refine ⟨c :: f, rest, by simp [hl], ?_, by simp [hx], hrest⟩
      intro y hy
      rcases List.mem_cons.1 hy with rfl | hy
      · exact hc
      · exact hf y hy

/-- The first field from the start of a field: white space, the field, and the rest. -/
theorem fieldsLoop_cons_of_nil (l : List Char) (x : String) (xs : List String)
    (h : fieldsLoop l [] = x :: xs) :
    ∃ w f rest, l = w ++ f ++ rest ∧ isBlank w ∧ isField f ∧ x = String.mk f ∧
      ((rest = [] ∧ xs = []) ∨
        ∃ c rest2, rest = c :: rest2 ∧ isSpace c = true ∧ xs = fieldsLoop rest2 []) := by
  induction l with
  | nil => simp [fieldsLoop] at h
  | cons c l ih =>
    cases hc : isSpace c with
    | true =>
      simp only [fieldsLoop, hc, if_true, List.isEmpty_nil] at h
      obtain ⟨w, f, rest, hl, hw, hf, hx, hrest⟩ := ih h
      refine ⟨c :: w, f, rest, by simp [hl], ?_, hf, hx, hrest⟩
      intro y hy
      rcases List.mem_cons.1 hy with rfl | hy
      · exact hc
      · exact hw y hy
    | false =>
      simp only [fieldsLoop, hc, Bool.false_eq_true, if_false] at h
      obtain ⟨f, rest, hl, hf, hx, hrest⟩ :=
        fieldsLoop_cons_of_cur l [c] x xs (List.cons_ne_nil _ _) h
      refine ⟨[], c :: f, rest, by simp [hl], by intro y hy; simp at hy,
        ⟨List.cons_ne_nil _ _, ?_⟩, by simpa using hx, hrest⟩
      intro y hy
      rcases List.mem_cons.1 hy with rfl | hy
      · exact hc
      · exact hf y hy

theorem fieldsLoop_field_blank (f w : List Char) (hf : isField f) (hw : isBlank w) :
    fieldsLoop (f ++ w) [] = [String.mk f] := by
  rw [fieldsLoop_noSpace f w [] hf.2]
  have hne : f.reverse ++ [] ≠ [] := by simpa using hf.1
  cases w with
  | nil => simp [fieldsLoop, hf.1]
  | cons c w =>
    have hc : isSpace c = true := hw c (List.mem_cons_self _ _)
    have hw2 : isBlank w := fun x hx => hw x (List.mem_cons_of_mem _ hx)
    rw [fieldsLoop_space c w _ hc hne]
    have h0 := fieldsLoop_blank w [] hw2
    simp only [List.append_nil] at h0
    simp [h0, fieldsLoop]

/-- The code's split agrees with the description: `strings.Fields` returns exactly the two
fields `a` and `b` if and only if the string splits in two on white space into `a` and `b`. -/
theorem Fields_eq_two_iff (s a b : String) :
    Fields s = [a, b] ↔ splitsInTwo s.data a.data b.data := by
  constructor
  · intro h
    obtain ⟨w0, f1, rest1, hl1, hw0, hf1, ha, hrest1⟩ := fieldsLoop_cons_of_nil s.data a [b] h
    rcases hrest1 with ⟨-, hxs⟩ | ⟨c, rest2, hr1, hc, hxs⟩
    · simp at hxs
    · obtain ⟨w1, f2, rest3, hl2, hw1, hf2, hb, hrest3⟩ :=
        fieldsLoop_cons_of_nil rest2 b [] hxs.symm
      have hw2 : isBlank rest3 := by
        rcases hrest3 with ⟨hr3, -⟩ | ⟨c2, rest4, hr3, hc2, hxs2⟩
        · rw [hr3]; intro y hy; simp at hy
        · have hb4 := isBlank_of_fieldsLoop_nil rest4 hxs2.symm
          rw [hr3]
          intro y hy
          rcases List.mem_cons.1 hy with rfl | hy
          · exact hc2
          · exact hb4 y hy
      refine ⟨w0, c :: w1, rest3, hw0, ?_, List.cons_ne_nil _ _, hw2, ?_, ?_, ?_⟩
      · intro y hy
        rcases List.mem_cons.1 hy with rfl | hy
        · exact hc
        · exact hw1 y hy
      · rw [ha]; exact hf1
      · rw [hb]; exact hf2
      · rw [hl1, hr1, hl2, ha, hb]; simp
  · rintro ⟨w0, w1, w2, hw0, hw1, hne, hw2, hfa, hfb, hs⟩
    unfold Fields
    rw [hs]
    obtain ⟨c, w1', rfl⟩ := List.exists_cons_of_ne_nil hne
    have hc : isSpace c = true := hw1 c (List.mem_cons_self _ _)
    have hw1' : isBlank w1' := fun x hx => hw1 x (List.mem_cons_of_mem _ hx)
    have e : w0 ++ a.data ++ c :: w1' ++ b.data ++ w2 =
        w0 ++ (a.data ++ (c :: (w1' ++ (b.data ++ w2)))) := by simp
    have hra : a.data.reverse ++ [] ≠ [] := by simpa using hfa.1
    rw [e, fieldsLoop_blank _ _ hw0, fieldsLoop_noSpace _ _ _ hfa.2,
      fieldsLoop_space c _ _ hc hra, fieldsLoop_blank _ _ hw1',
      fieldsLoop_field_blank _ _ hfb hw2]
    simp

/-- The mapping of `ToLower` on one character. -/
theorem lower_eq_iff (c : Char) :
    ((if 'A'.toNat ≤ c.toNat ∧ c.toNat ≤ 'Z'.toNat then Char.ofNat (c.toNat + 32) else c) = 'b' ↔
        (c = 'b' ∨ c = 'B')) ∧
    ((if 'A'.toNat ≤ c.toNat ∧ c.toNat ≤ 'Z'.toNat then Char.ofNat (c.toNat + 32) else c) = 'e' ↔
        (c = 'e' ∨ c = 'E')) ∧
    ((if 'A'.toNat ≤ c.toNat ∧ c.toNat ≤ 'Z'.toNat then Char.ofNat (c.toNat + 32) else c) = 'a' ↔
        (c = 'a' ∨ c = 'A')) ∧
    ((if 'A'.toNat ≤ c.toNat ∧ c.toNat ≤ 'Z'.toNat then Char.ofNat (c.toNat + 32) else c) = 'r' ↔
        (c = 'r' ∨ c = 'R')) := by
  by_cases h : 'A'.toNat ≤ c.toNat ∧ c.toNat ≤ 'Z'.toNat
  · have hc : c = Char.ofNat c.toNat := (Char.ofNat_toNat c).symm
    have h1 : 65 ≤ c.toNat := h.1
    have h2 : c.toNat ≤ 90 := h.2
    generalize c.toNat = n at hc h1 h2
    subst hc
    interval_cases n <;> decide
  · simp only [h, if_false]
    refine ⟨⟨Or.inl, ?_⟩, ⟨Or.inl, ?_⟩, ⟨Or.inl, ?_⟩, ⟨Or.inl, ?_⟩⟩ <;>
    · rintro (rfl | rfl)
      · rfl
      · exact absurd (by decide) h

theorem ToLower_eq_bearer_iff (a : String) : ToLower a = "bearer" ↔ isBearer a.data := by
  have hmk : ToLower a = "bearer" ↔
      (a.data.map fun c =>
        if 'A'.toNat ≤ c.toNat ∧ c.toNat ≤ 'Z'.toNat then Char.ofNat (c.toNat + 32) else c) =
        ['b', 'e', 'a', 'r', 'e', 'r'] := by
    unfold ToLower
    constructor
    · intro h; exact congrArg String.data h
    · intro h; rw [h]
  rw [hmk]
  unfold isBearer
  constructor
  · intro h
    generalize a.data = l at h
    rcases l with _ | ⟨c1, _ | ⟨c2, _ | ⟨c3, _ | ⟨c4, _ | ⟨c5, _ | ⟨c6, _ | ⟨c7, l⟩⟩⟩⟩⟩⟩⟩
    case cons.cons.cons.cons.cons.cons.nil =>
      simp only [List.map_cons, List.map_nil, List.cons.injEq, and_true] at h
      obtain ⟨h1, h2, h3, h4, h5, h6⟩ := h
      exact ⟨c1, c2, c3, c4, c5, c6, rfl, (lower_eq_iff c1).1.1 h1, (lower_eq_iff c2).2.1.1 h2,
        (lower_eq_iff c3).2.2.1.1 h3, (lower_eq_iff c4).2.2.2.1 h4, (lower_eq_iff c5).2.1.1 h5,
        (lower_eq_iff c6).2.2.2.1 h6⟩
    all_goals exact absurd h (by simp)
  · rintro ⟨c1, c2, c3, c4, c5, c6, hd, h1, h2, h3, h4, h5, h6⟩
    rw [hd]
    simp only [List.map_cons, List.map_nil, List.cons.injEq, and_true]
    exact ⟨(lower_eq_iff c1).1.2 h1, (lower_eq_iff c2).2.1.2 h2, (lower_eq_iff c3).2.2.1.2 h3,
      (lower_eq_iff c4).2.2.2.2 h4, (lower_eq_iff c5).2.1.2 h5, (lower_eq_iff c6).2.2.2.2 h6⟩

theorem tokenStringOfHeader_ok_iff (r : Request) (token : String) :
    tokenStringOfHeader r = .ok token ↔ isBearerHeader r.Authorization token := by
  unfold isBearerHeader
  constructor
  · intro h
    simp only [tokenStringOfHeader] at h
    split_ifs at h with hbad
    push_neg at hbad
    obtain ⟨hlen, hlow⟩ := hbad
    generalize hf : Fields r.Authorization = parts at h hlen hlow
    rcases parts with _ | ⟨a, _ | ⟨b, _ | ⟨c, l⟩⟩⟩
    · simp at hlen
    · simp at hlen
    · have hb : b = token := by simpa using h
      subst hb
      have hlow2 : ToLower a = "bearer" := by simpa using hlow
      exact ⟨a.data, (Fields_eq_two_iff _ a b).1 hf, (ToLower_eq_bearer_iff a).1 hlow2⟩
    · simp at hlen
  · rintro ⟨scheme, hsplit, hbearer⟩
    have hf : Fields r.Authorization = [String.mk scheme, token] :=
      (Fields_eq_two_iff _ (String.mk scheme) token).2 hsplit
    have hl : ToLower (String.mk scheme) = "bearer" :=
      (ToLower_eq_bearer_iff (String.mk scheme)).2 hbearer
    simp [tokenStringOfHeader, hf, hl]

theorem tokenStringOfHeader_error (r : Request) (e : GoError)
    (h : tokenStringOfHeader r = .error e) : e = .new headerFormatText := by
  simp only [tokenStringOfHeader] at h
  split_ifs at h with hbad
  simp only [Except.error.injEq] at h
  exact h.symm

/-! ## C7 -/

/-- C7: the header step of `getTokenFromAuthHeaderAndValidate` fails, with the error for the
header format, if and only if the Authorization header does not split on white space into
exactly two fields of which the first equals `bearer` without regard to case; it then fails
with that error whatever `jwt.ParseSigned` would return, and otherwise the result is that of the
parse and the validation of the second field. The headers `bearer x`, `BEARER   x` and
`  Bearer x  ` pass with the token string `x`; the empty header, `Bearer`, `Bearer a b` and
`Basic x` are rejected. -/
theorem header_step_spec (md : authorizationServerMetadata) (now : Nat) (r : Request) :
    ((∃ e, tokenStringOfHeader r = .error e) ↔ ¬ ∃ token, isBearerHeader r.Authorization token) ∧
    ((¬ ∃ token, isBearerHeader r.Authorization token) →
      ∀ P : String → Except GoError JSONWebToken,
        getTokenFromAuthHeaderAndValidate P md now r =
          .error (.new "authorization header format must be: Bearer {the base64 url encoded access token without curly braces}")) ∧
    (∀ token, isBearerHeader r.Authorization token →
      ∀ P : String → Except GoError JSONWebToken,
        getTokenFromAuthHeaderAndValidate P md now r =
          match P token with
          | .error e => .error e
          | .ok t => validateToken md now t) ∧
    tokenStringOfHeader ⟨"bearer x"⟩ = .ok "x" ∧
    tokenStringOfHeader ⟨"BEARER   x"⟩ = .ok "x" ∧
    tokenStringOfHeader ⟨"  Bearer x  "⟩ = .ok "x" ∧
    tokenStringOfHeader ⟨""⟩ = .error (.new headerFormatText) ∧
    tokenStringOfHeader ⟨"Bearer"⟩ = .error (.new headerFormatText) ∧
    tokenStringOfHeader ⟨"Bearer a b"⟩ = .error (.new headerFormatText) ∧
    tokenStringOfHeader ⟨"Basic x"⟩ = .error (.new headerFormatText) := by
  have key : (∃ e, tokenStringOfHeader r = .error e) ↔
      ¬ ∃ token, isBearerHeader r.Authorization token := by
    constructor
    · rintro ⟨e, he⟩ ⟨token, ht⟩
      rw [(tokenStringOfHeader_ok_iff r token).2 ht] at he
      cases he
    · intro hno
      cases hh : tokenStringOfHeader r with
      | error e => exact ⟨e, rfl⟩
      | ok token => exact absurd ⟨token, (tokenStringOfHeader_ok_iff r token).1 hh⟩ hno
  refine ⟨key, ?_, ?_, rfl, rfl, rfl, rfl, rfl, rfl, rfl⟩
  · intro hno P
    obtain ⟨e, he⟩ := key.2 hno
    have := tokenStringOfHeader_error r e he
    subst this
    simp [getTokenFromAuthHeaderAndValidate, he, headerFormatText]
  · intro token ht P
    simp [getTokenFromAuthHeaderAndValidate, (tokenStringOfHeader_ok_iff r token).2 ht]

/-- Witness of C7: the header `Bearer e30.e30.c2ln` and the header `Basic x`. -/
theorem header_step_spec_witness :
    getTokenFromAuthHeaderAndValidate (sampleParse (sampleToken "k1" sampleClaims .absent))
        sampleMetadata 1500000000000 ⟨"Basic x"⟩ =
      .error (.new "authorization header format must be: Bearer {the base64 url encoded access token without curly braces}") :=
  (header_step_spec sampleMetadata 1500000000000 ⟨"Basic x"⟩).2.1
    (fun ⟨token, h⟩ => by
      have h2 := (tokenStringOfHeader_ok_iff ⟨"Basic x"⟩ token).2 h
      have h3 : tokenStringOfHeader ⟨"Basic x"⟩ = .error (.new headerFormatText) := rfl
      rw [h3] at h2
      cases h2)
    (sampleParse (sampleToken "k1" sampleClaims .absent))

/-! ## C8 -/

theorem scopeLoop_proceeds_iff (s : String) (scopes : List String) :
    scopeLoop s scopes = ⟨1, []⟩ ↔ s ∈ scopes := by
  induction scopes with
  | nil => simp [scopeLoop]
  | cons a rest ih =>
    by_cases h : a = s
    · simp [scopeLoop, h]
    · have h2 : ¬ s = a := fun e => h e.symm
      simp [scopeLoop, h, h2, ih]

theorem scopeLoop_absent (s : String) (scopes : List String) (h : s ∉ scopes) :
    scopeLoop s scopes = ⟨0, [("access token did not contain the required scope", 401)]⟩ := by
  induction scopes with
  | nil => rfl
  | cons a rest ih =>
    have h1 : ¬ a = s := fun e => h (by simp [e])
    have h2 : s ∉ rest := fun e => h (List.mem_cons_of_mem _ e)
    simp [scopeLoop, h1, ih h2]

/-- C8: the handler returned by `IsAuthenticatedAndAuthorizedMiddleware(s)` calls `next` once
and writes no error if and only if the validation returned a token and `s` is equal to an element
of the scope list decoded from it; in every other case it does not call `next` and answers with
one error of status 401, whose text is `access token did not contain the required scope` when
the validation succeeded and `s` is absent. With the scope `["a","b"]` the required scope `b`
proceeds and the required scope `c` is answered 401. -/
theorem middleware_scope_gate (s : String) (P : String → Except GoError JSONWebToken)
    (md : authorizationServerMetadata) (now : Nat) (r : Request) :
    (IsAuthenticatedAndAuthorizedMiddleware s P md now r = ⟨1, []⟩ ↔
      ∃ token, getTokenFromAuthHeaderAndValidate P md now r = .ok token ∧
        s ∈ decodeScopes token.scope) ∧
    (IsAuthenticatedAndAuthorizedMiddleware s P md now r ≠ ⟨1, []⟩ →
      (IsAuthenticatedAndAuthorizedMiddleware s P md now r).nextCalls = 0 ∧
      ∃ text, (IsAuthenticatedAndAuthorizedMiddleware s P md now r).errors = [(text, 401)]) ∧
    (∀ token, getTokenFromAuthHeaderAndValidate P md now r = .ok token →
      s ∉ decodeScopes token.scope →
      IsAuthenticatedAndAuthorizedMiddleware s P md now r =
        ⟨0, [("access token did not contain the required scope", 401)]⟩) ∧
    (∀ token, getTokenFromAuthHeaderAndValidate P md now r = .ok token →
      token.scope = .array [some "a", some "b"] →
      IsAuthenticatedAndAuthorizedMiddleware "b" P md now r = ⟨1, []⟩ ∧
      IsAuthenticatedAndAuthorizedMiddleware "c" P md now r =
        ⟨0, [("access token did not contain the required scope", 401)]⟩) := by
  unfold IsAuthenticatedAndAuthorizedMiddleware
  cases hg : getTokenFromAuthHeaderAndValidate P md now r with
  | error e => simp [StatusUnauthorized]
  | ok token =>
    simp only [Except.ok.injEq, exists_eq_left', forall_eq']
    refine ⟨scopeLoop_proceeds_iff s _, ?_, scopeLoop_absent s _, ?_⟩
    · intro hne
      have habs : s ∉ decodeScopes token.scope :=
        fun hm => hne ((scopeLoop_proceeds_iff s _).2 hm)
      rw [scopeLoop_absent s _ habs]
      exact ⟨rfl, _, rfl⟩
    · intro hs
      rw [hs]
      exact ⟨rfl, rfl⟩

/-! ## C9 -/

/-- C9, counterexample: the validated token has the scope claim `"a b"`, a single
space-separated string, and the required scope `a` is answered 401. -/
theorem string_scope_never_proceeds :
    getTokenFromAuthHeaderAndValidate
        (sampleParse (sampleToken "k1" sampleClaims (.string "a b")))
        sampleMetadata 1500000000000 ⟨"Bearer e30.e30.c2ln"⟩ =
      .ok (sampleToken "k1" sampleClaims (.string "a b")) ∧
    IsAuthenticatedAndAuthorizedMiddleware "a"
        (sampleParse (sampleToken "k1" sampleClaims (.string "a b")))
        sampleMetadata 1500000000000 ⟨"Bearer e30.e30.c2ln"⟩ =
      ⟨0, [("access token did not contain the required scope", 401)]⟩ := by
  refine ⟨rfl, rfl⟩

/-- C9, amended: for every validated token whose scope claim is a JSON array of strings, the
request proceeds to `next` exactly when the required scope is one of the listed scopes; for every
validated token whose scope claim is a single string, the request never proceeds and is answered
401 `access token did not contain the required scope`. -/
theorem scope_gate_encodings (s : String) (P : String → Except GoError JSONWebToken)
    (md : authorizationServerMetadata) (now : Nat) (r : Request) (token : JSONWebToken)
    (h : getTokenFromAuthHeaderAndValidate P md now r = .ok token) :
    (∀ scopes : List String, token.scope = .array (scopes.map some) →
      (IsAuthenticatedAndAuthorizedMiddleware s P md now r = ⟨1, []⟩ ↔ s ∈ scopes)) ∧
    (∀ str : String, token.scope = .string str →
      IsAuthenticatedAndAuthorizedMiddleware s P md now r =
        ⟨0, [("access token did not contain the required scope", 401)]⟩) := by
  unfold IsAuthenticatedAndAuthorizedMiddleware
  simp only [h]
  constructor
  · intro scopes hs
    rw [hs, scopeLoop_proceeds_iff]
    simp [decodeScopes]
  · intro str hs
    rw [hs]
    rfl

/-- Witness of C9: the sample token with an array scope claim. -/
theorem scope_gate_encodings_witness :
    (∀ scopes : List String,
      (sampleToken "k1" sampleClaims (.array [some "a", some "b"])).scope =
        .array (scopes.map some) →
      (IsAuthenticatedAndAuthorizedMiddleware "b"
          (sampleParse (sampleToken "k1" sampleClaims (.array [some "a", some "b"])))
          sampleMetadata 1500000000000 ⟨"Bearer e30.e30.c2ln"⟩ = ⟨1, []⟩ ↔ "b" ∈ scopes)) ∧
    (∀ str : String,
      (sampleToken "k1" sampleClaims (.array [some "a", some "b"])).scope = .string str →
      IsAuthenticatedAndAuthorizedMiddleware "b"
          (sampleParse (sampleToken "k1" sampleClaims (.array [some "a", some "b"])))
          sampleMetadata 1500000000000 ⟨"Bearer e30.e30.c2ln"⟩ =
        ⟨0, [("access token did not contain the required scope", 401)]⟩) :=
  scope_gate_encodings "b" (sampleParse (sampleToken "k1" sampleClaims (.array [some "a", some "b"])))
    sampleMetadata 1500000000000 ⟨"Bearer e30.e30.c2ln"⟩
    (sampleToken "k1" sampleClaims (.array [some "a", some "b"])) rfl

/-! ## C10 -/

/-- When the three readings of the clock fall in one second, the assertion carries
`nbf = iat` and `exp = nbf + 60`. -/
theorem clientAssertionClaims_same_second (md : clientMetadata) (jti : String)
    (now1 now2 now3 : Nat) (h12 : now1 / 1000000000 = now2 / 1000000000)
    (h13 : now1 / 1000000000 = now3 / 1000000000) :
    (clientAssertionClaims md jti now1 now2 now3).NotBefore =
      some ((now1 / 1000000000 : Nat) : Int) ∧
    (clientAssertionClaims md jti now1 now2 now3).IssuedAt =
      some ((now1 / 1000000000 : Nat) : Int) ∧
    (clientAssertionClaims md jti now1 now2 now3).Expiry =
      some (((now1 / 1000000000 : Nat) : Int) + 60) := by
  simp only [clientAssertionClaims, NewNumericDate, Time.Unix, Time.Add, Minute,
    Option.some.injEq]
  have e1 : ((now1 : Nat) : Int) / 1000000000 = ((now1 / 1000000000 : Nat) : Int) := by omega
  have e2 : ((now2 : Nat) : Int) / 1000000000 = ((now1 / 1000000000 : Nat) : Int) := by omega
  have e3 : (((now3 : Nat) : Int) + 60 * 1000000000) / 1000000000 =
      ((now1 / 1000000000 : Nat) : Int) + 60 := by omega
  exact ⟨e1, e2, e3⟩

/-- C10, at the failing input: the clock reads 0.999999999 s for `NotBefore` and 1 s for
`IssuedAt` and `Expiry`. The assertion of the web application and the one of the
machine-to-machine client then carry `nbf = 0`, `iat = 1` and `exp = 61`: `nbf` and `iat` differ
and the lifetime `exp - nbf` is 61 seconds. -/
theorem client_assertion_clock_straddles_second (signer : Signer)
    (getJwtSigner : Except GoError Signer) (md : clientMetadata) :
    GenerateClientAssertionToken (some signer) getJwtSigner md ⟨List.replicate 18 7, none⟩
        999999999 1000000000 1000000000 =
      generateSignedJwt (some signer) getJwtSigner
        (.assertion
          { Issuer := "golang-web-app", Subject := "golang-web-app",
            Audience := [md.Token_endpoint], Expiry := some 61, NotBefore := some 0,
            IssuedAt := some 1, ID := "BwcHBwcHBwcHBwcHBwcHBwcH" }) ∧
    generateClientAssertionToken signer md ⟨List.replicate 18 7, none⟩
        999999999 1000000000 1000000000 =
      (match signer
          (.assertion
            { Issuer := "golang-m2m-app", Subject := "golang-m2m-app",
              Audience := [md.Token_endpoint], Expiry := some 61, NotBefore := some 0,
              IssuedAt := some 1, ID := "BwcHBwcHBwcHBwcHBwcHBwcH" }) with
        | .error _ => .ok ""
        | .ok raw => .ok raw) := by
  have h1 : generateRandomString 24 ⟨List.replicate 18 7, none⟩ =
      .ok "BwcHBwcHBwcHBwcHBwcHBwcH" := by decide
  have h2 : m2mGenerateRandomString 24 ⟨List.replicate 18 7, none⟩ =
      .ok "BwcHBwcHBwcHBwcHBwcHBwcH" := by decide
  constructor
  · simp only [GenerateClientAssertionToken, h1]
    rfl
  · simp only [generateClientAssertionToken, h2]
    rfl

/-! ## C11 -/

/-- When the two readings of the clock fall in one second, the request object carries
`exp = nbf + 60`; every other claim is as the claims literal gives it, whatever the clock. -/
theorem requestObjectClaims_same_second (md : clientMetadata) (jti : String) (now1 now2 : Nat)
    (state nonce codeChallenge : String) (h : now1 / 1000000000 = now2 / 1000000000) :
    requestObjectClaims md jti now1 now2 state nonce codeChallenge =
      { Id := jti, NotBefore := some ((now1 / 1000000000 : Nat) : Int),
        Expiry := some (((now1 / 1000000000 : Nat) : Int) + 60), Iss := "golang-web-app",
        Client_id := "golang-web-app", Aud := md.Issuer, Response_type := "code",
        Redirect_uri := "http://localhost:44123/callback",
        Scope := "openid profile norsk-helsenett:golang-sample-api/foo", State := state,
        Nonce := nonce, Code_challenge := codeChallenge, Code_challenge_method := "S256" } := by
  have e1 : ((now1 : Nat) : Int) / 1000000000 = ((now1 / 1000000000 : Nat) : Int) := by omega
  have e2 : (((now2 : Nat) : Int) + 60 * 1000000000) / 1000000000 =
      ((now1 / 1000000000 : Nat) : Int) + 60 := by omega
  have e3 : Join scopes " " = "openid profile norsk-helsenett:golang-sample-api/foo" := by
    decide
  simp only [requestObjectClaims, NewNumericDate, Time.Unix, Time.Add, Minute, e3, ClientId,
    redirectLoginUrl]
  rw [e1, e2]

/-- C11, at the failing input: the clock reads 0.999999999 s for `NotBefore` and 1 s for
`Expiry`. For all strings `state`, `nonce` and `codeChallenge` the payload that is signed has
the claims of the claim, with the three arguments unchanged and a `jti` of 24 characters, but
`nbf = 0` and `exp = 61`: the lifetime `exp - nbf` is 61 seconds. -/
theorem request_object_clock_straddles_second (signer : Signer)
    (getJwtSigner : Except GoError Signer) (md : clientMetadata)
    (state nonce codeChallenge : String) :
    GenerateRequestObject (some signer) getJwtSigner md ⟨List.replicate 18 7, none⟩
        999999999 1000000000 state nonce codeChallenge =
      generateSignedJwt (some signer) getJwtSigner
        (.request
          { Id := "BwcHBwcHBwcHBwcHBwcHBwcH", NotBefore := some 0, Expiry := some 61,
            Iss := "golang-web-app", Client_id := "golang-web-app", Aud := md.Issuer,
            Response_type := "code", Redirect_uri := "http://localhost:44123/callback",
            Scope := "openid profile norsk-helsenett:golang-sample-api/foo", State := state,
            Nonce := nonce, Code_challenge := codeChallenge,
            Code_challenge_method := "S256" }) ∧
    "BwcHBwcHBwcHBwcHBwcHBwcH".length = 24 := by
  have h1 : generateRandomString 24 ⟨List.replicate 18 7, none⟩ =
      .ok "BwcHBwcHBwcHBwcHBwcHBwcH" := by decide
  have e3 : Join scopes " " = "openid profile norsk-helsenett:golang-sample-api/foo" := by
    decide
  refine ⟨?_, by decide⟩
  simp only [GenerateRequestObject, h1, requestObjectClaims, e3]
  rfl

/-! ## Lemmas on sessions and on the callback -/

theorem lookup_filter_ne (l : List (String × SessionValue)) (k k2 : String) (h : k2 ≠ k) :
    (l.filter (fun p => p.1 ≠ k)).lookup k2 = l.lookup k2 := by
  induction l with
  | nil => rfl
  | cons p l ih =>
    obtain ⟨a, b⟩ := p
    by_cases ha : a = k
    · have hk : (k2 == k) = false := by
        rw [beq_eq_false_iff_ne]
        exact h
      subst ha
      simpa [List.filter_cons, List.lookup_cons, hk] using ih
    · by_cases hk : k2 = a
      · simp [List.filter_cons, ha, List.lookup_cons, hk]
      · have hk2 : (k2 == a) = false := by
          rw [beq_eq_false_iff_ne]
          exact hk
        simpa [List.filter_cons, ha, List.lookup_cons, hk2] using ih

theorem Session.value_set_self (s : Session) (k : String) (v : SessionValue) :
    (s.set k v).value k = some v := by
  simp [Session.set, Session.value, List.lookup_cons]

theorem Session.value_set_ne (s : Session) (k k2 : String) (v : SessionValue) (h : k2 ≠ k) :
    (s.set k v).value k2 = s.value k2 := by
  have hk : (k2 == k) = false := by
    rw [beq_eq_false_iff_ne]
    exact h
  simp only [Session.set, Session.value, List.lookup_cons, hk]
  exact lookup_filter_ne s.Values k k2 h

theorem stringNe_eq_true (str : String) (x : Option SessionValue) :
    stringNe str x = true ↔ x ≠ some (.str str) := by
  simp [stringNe]

theorem stringNe_eq_false (str : String) (x : Option SessionValue) :
    stringNe str x = false ↔ x = some (.str str) := by
  simp [stringNe]

/-! ## C12 -/

/-- C12, counterexample: the session store returns an error with a fresh session, in which no
state is persisted; the handler answers 500 with the text of the error, not 400
`Invalid state parameter`. -/
theorem callback_store_error_is_500 :
    ({ sampleCallback with
        session := ⟨[]⟩,
        sessionErr := some (.lib "securecookie: the value is not valid") } :
      CallbackRequest).session.value "state" ≠ some (.str "s1") ∧
    (CallbackHandler (sampleApp "n1")
      { sampleCallback with
        session := ⟨[]⟩,
        sessionErr := some (.lib "securecookie: the value is not valid") }).events =
      [.httpError "securecookie: the value is not valid" 500] ∧
    ([.httpError "securecookie: the value is not valid" 500] : List Event) ≠
      [.httpError "Invalid state parameter" 400] := by
  refine ⟨by decide, rfl, by decide⟩

/-- C12, amended: `CallbackHandler` proceeds past the state check only if the session holds a
string state equal to the `state` query parameter. For every other request it fails closed: it
answers 400 `Invalid state parameter` when the session store returned the session without
error, and 500 with the text of the error when it did not; it mints no client assertion, does
not call the token endpoint, does not save the session and leaves its values as they were. -/
theorem callback_state_mismatch_fails_closed (app : WebApp) (r : CallbackRequest)
    (h : r.session.value "state" ≠ some (.str r.state)) :
    ((r.sessionErr = none ∧
        (CallbackHandler app r).events = [.httpError "Invalid state parameter" 400]) ∨
      (∃ err, r.sessionErr = some err ∧
        (CallbackHandler app r).events = [.httpError err.Error 500])) ∧
    (CallbackHandler app r).session = r.session ∧
    Event.clientAssertion ∉ (CallbackHandler app r).events ∧
    (∀ code codeVerifier assertion,
      Event.exchange code codeVerifier assertion ∉ (CallbackHandler app r).events) ∧
    (∀ session, Event.save session ∉ (CallbackHandler app r).events) := by
  have hne := (stringNe_eq_true r.state (r.session.value "state")).2 h
  cases he : r.sessionErr with
  | some err =>
    simp [CallbackHandler, he, StatusInternalServerError]
  | none =>
    simp [CallbackHandler, he, hne, StatusBadRequest]

/-- Witness of C12: the sample callback with the state `other`. -/
theorem callback_state_mismatch_fails_closed_witness :
    ((({ sampleCallback with state := "other" } : CallbackRequest).sessionErr = none ∧
        (CallbackHandler (sampleApp "n1") { sampleCallback with state := "other" }).events =
          [.httpError "Invalid state parameter" 400]) ∨
      (∃ err, ({ sampleCallback with state := "other" } : CallbackRequest).sessionErr =
          some err ∧
        (CallbackHandler (sampleApp "n1") { sampleCallback with state := "other" }).events =
          [.httpError err.Error 500])) ∧
    (CallbackHandler (sampleApp "n1") { sampleCallback with state := "other" }).session =
      ({ sampleCallback with state := "other" } : CallbackRequest).session ∧
    Event.clientAssertion ∉
      (CallbackHandler (sampleApp "n1") { sampleCallback with state := "other" }).events ∧
    (∀ code codeVerifier assertion,
      Event.exchange code codeVerifier assertion ∉
        (CallbackHandler (sampleApp "n1") { sampleCallback with state := "other" }).events) ∧
    (∀ session, Event.save session ∉
      (CallbackHandler (sampleApp "n1") { sampleCallback with state := "other" }).events) :=
  callback_state_mismatch_fails_closed (sampleApp "n1") { sampleCallback with state := "other" }
    (by decide)

/-! ## C13 -/

/-- C13: in `CallbackHandler`, when the ID token is verified and its nonce differs from the
nonce of the session, or the session has no nonce, the handler answers 400 `Invalid nonce`: the
session is as it was, with its values `id_token`, `access_token` and `claims`, it is not saved,
and there is no redirect. -/
theorem callback_nonce_mismatch_fails (app : WebApp) (r : CallbackRequest)
    (codeVerifier assertion rawIDToken : String) (jwtSigner : Option Signer)
    (authenticator : Authenticator) (token : Token) (idToken : IDToken)
    (hs : r.sessionErr = none)
    (hstate : r.session.value "state" = some (.str r.state))
    (hcv : r.session.value "code-verifier" = some (.str codeVerifier))
    (hca : GenerateClientAssertionToken app.jwtSigner app.getJwtSigner app.HelseidMetadata
      r.jtiRead r.now1 r.now2 r.now3 = (.ok assertion, jwtSigner))
    (ha : app.NewAuthenticator = .ok authenticator)
    (hx : authenticator.Exchange r.code codeVerifier assertion
      "urn:ietf:params:oauth:client-assertion-type:jwt-bearer" = .ok token)
    (hid : token.id_token = some rawIDToken)
    (hv : authenticator.Verify ClientId rawIDToken = .ok idToken)
    (hn : r.session.value "nonce" ≠ some (.str idToken.Nonce)) :
    (CallbackHandler app r).events =
      [.clientAssertion, .exchange r.code codeVerifier assertion,
        .httpError "Invalid nonce" 400] ∧
    (CallbackHandler app r).session = r.session ∧
    (CallbackHandler app r).session.value "id_token" = r.session.value "id_token" ∧
    (CallbackHandler app r).session.value "access_token" = r.session.value "access_token" ∧
    (CallbackHandler app r).session.value "claims" = r.session.value "claims" ∧
    (∀ session, Event.save session ∉ (CallbackHandler app r).events) ∧
    (∀ location code, Event.redirect location code ∉ (CallbackHandler app r).events) := by
  have hst := (stringNe_eq_false r.state (r.session.value "state")).2 hstate
  have hnn := (stringNe_eq_true idToken.Nonce (r.session.value "nonce")).2 hn
  have hrun : CallbackHandler app r =
      ⟨[.clientAssertion, .exchange r.code codeVerifier assertion,
        .httpError "Invalid nonce" 400], r.session, jwtSigner⟩ := by
    simp [CallbackHandler, hs, hst, callbackExchange, hcv, hca, ha, hx, hid, callbackVerify, hv,
      hnn, StatusBadRequest]
  rw [hrun]
  simp

/-- Witness of C13: the sample callback, whose session has the nonce `n1`, with an ID token of
nonce `n2`. -/
theorem callback_nonce_mismatch_fails_witness :
    (CallbackHandler (sampleApp "n2") sampleCallback).events =
      [.clientAssertion, .exchange "c1" "v1" "e30.e30.c2ln", .httpError "Invalid nonce" 400] ∧
    (CallbackHandler (sampleApp "n2") sampleCallback).session = sampleCallback.session ∧
    (CallbackHandler (sampleApp "n2") sampleCallback).session.value "id_token" =
      sampleCallback.session.value "id_token" ∧
    (CallbackHandler (sampleApp "n2") sampleCallback).session.value "access_token" =
      sampleCallback.session.value "access_token" ∧
    (CallbackHandler (sampleApp "n2") sampleCallback).session.value "claims" =
      sampleCallback.session.value "claims" ∧
    (∀ session, Event.save session ∉ (CallbackHandler (sampleApp "n2") sampleCallback).events) ∧
    (∀ location code,
      Event.redirect location code ∉ (CallbackHandler (sampleApp "n2") sampleCallback).events) :=
  callback_nonce_mismatch_fails (sampleApp "n2") sampleCallback "v1" "e30.e30.c2ln"
    "e30.e30.aWQ" (some sampleSigner) (sampleAuthenticator "n2")
    ⟨"e30.e30.YXQ", some "e30.e30.aWQ"⟩ ⟨"n2", .ok "{}"⟩ rfl (by decide) (by decide)
    (by
      have h1 : generateRandomString 24 sampleCallback.jtiRead =
          .ok "BwcHBwcHBwcHBwcHBwcHBwcH" := by decide
      simp only [GenerateClientAssertionToken, h1]
      rfl)
    rfl rfl rfl rfl (by decide)

/-! ## C14 -/

/-- The run of the callback that redirects is the run in which every step succeeds; it saves
the session of the request with the three values `id_token`, `access_token` and `claims` set. -/
theorem callbackVerify_redirect (app : WebApp) (session : Session) (a : Authenticator)
    (token : Token) (raw : String) (pre : List Event) (js : Option Signer)
    (hpre : ∀ location code, Event.redirect location code ∉ pre)
    (h : ∃ location code, Event.redirect location code ∈
      (callbackVerify app session a token raw pre js).events) :
    ∃ nonce claims, session.value "nonce" = some (.str nonce) ∧
      (callbackVerify app session a token raw pre js).events =
        pre ++ [.save (((session.set "id_token" (.str raw)).set "access_token"
            (.str token.AccessToken)).set "claims" (.claims claims)),
          .redirect (.path "/user") 303] := by
  obtain ⟨location, code, h⟩ := h
  unfold callbackVerify at h ⊢
  cases hv : a.Verify ClientId raw with
  | error err =>
    simp only [hv, List.mem_append, List.mem_singleton] at h
    rcases h with h | h
    · exact absurd h (hpre _ _)
    · cases h
  | ok idToken =>
    simp only [hv] at h ⊢
    cases hn : stringNe idToken.Nonce (session.value "nonce") with
    | true =>
      simp only [hn, if_true, List.mem_append, List.mem_singleton] at h
      rcases h with h | h
      · exact absurd h (hpre _ _)
      · cases h
    | false =>
      simp only [hn, Bool.false_eq_true, if_false] at h ⊢
      cases hp : idToken.payload with
      | error err =>
        simp only [hp, List.mem_append, List.mem_singleton] at h
        rcases h with h | h
        · exact absurd h (hpre _ _)
        · cases h
      | ok claims =>
        simp only [hp] at h ⊢
        cases hsv : app.Save (((session.set "id_token" (.str raw)).set "access_token"
            (.str token.AccessToken)).set "claims" (.claims claims)) with
        | some err =>
          simp only [hsv, List.mem_append, List.mem_cons, List.mem_singleton,
            List.not_mem_nil, or_false] at h
          rcases h with h | h | h
          · exact absurd h (hpre _ _)
          · cases h
          · cases h
        | none =>
          exact ⟨idToken.Nonce, claims, (stringNe_eq_false _ _).1 hn, by simp [StatusSeeOther]⟩

theorem callbackExchange_redirect (app : WebApp) (r : CallbackRequest) (session : Session)
    (h : ∃ location code, Event.redirect location code ∈
      (callbackExchange app r session).events) :
    ∃ codeVerifier assertion raw access nonce claims,
      session.value "code-verifier" = some (.str codeVerifier) ∧
      session.value "nonce" = some (.str nonce) ∧
      (callbackExchange app r session).events =
        [.clientAssertion, .exchange r.code codeVerifier assertion,
          .save (((session.set "id_token" (.str raw)).set "access_token"
            (.str access)).set "claims" (.claims claims)),
          .redirect (.path "/user") 303] := by
  obtain ⟨location, code, h⟩ := h
  unfold callbackExchange at h ⊢
  rcases hcv : session.value "code-verifier" with _ | (cv | p | n)
  · simp [hcv] at h
  · simp only [hcv] at h ⊢
    rcases hg : GenerateClientAssertionToken app.jwtSigner app.getJwtSigner app.HelseidMetadata
        r.jtiRead r.now1 r.now2 r.now3 with ⟨res, js⟩
    cases res with
    | error e => simp [hg] at h
    | panic => simp [hg] at h
    | ok assertion =>
      simp only [hg] at h ⊢
      cases ha : app.NewAuthenticator with
      | error e => simp [ha] at h
      | ok authenticator =>
        simp only [ha] at h ⊢
        cases hx : authenticator.Exchange r.code cv assertion
            "urn:ietf:params:oauth:client-assertion-type:jwt-bearer" with
        | error e => simp [hx] at h
        | ok token =>
          simp only [hx] at h ⊢
          cases hid : token.id_token with
          | none => simp [hid] at h
          | some raw =>
            simp only [hid] at h ⊢
            obtain ⟨nonce, claims, hnonce, hev⟩ :=
              callbackVerify_redirect app session authenticator token raw
                [.clientAssertion, .exchange r.code cv assertion] js (by simp)
                ⟨location, code, h⟩
            exact ⟨cv, assertion, raw, token.AccessToken, nonce, claims, rfl, hnonce,
              by simpa using hev⟩
  · simp [hcv] at h
  · simp [hcv] at h

theorem CallbackHandler_redirect (app : WebApp) (r : CallbackRequest)
    (h : ∃ location code, Event.redirect location code ∈ (CallbackHandler app r).events) :
    ∃ codeVerifier assertion raw access nonce claims,
      r.sessionErr = none ∧
      r.session.value "state" = some (.str r.state) ∧
      r.session.value "code-verifier" = some (.str codeVerifier) ∧
      r.session.value "nonce" = some (.str nonce) ∧
      (CallbackHandler app r).events =
        [.clientAssertion, .exchange r.code codeVerifier assertion,
          .save (((r.session.set "id_token" (.str raw)).set "access_token"
            (.str access)).set "claims" (.claims claims)),
          .redirect (.path "/user") 303] := by
  obtain ⟨location, code, h⟩ := h
  unfold CallbackHandler at h ⊢
  cases he : r.sessionErr with
  | some err => simp [he] at h
  | none =>
    simp only [he] at h ⊢
    cases hst : stringNe r.state (r.session.value "state") with
    | true => simp [hst] at h
    | false =>
      simp only [hst, Bool.false_eq_true, if_false] at h ⊢
      obtain ⟨cv, assertion, raw, access, nonce, claims, hcv, hnonce, hev⟩ :=
        callbackExchange_redirect app r r.session ⟨location, code, h⟩
      exact ⟨cv, assertion, raw, access, nonce, claims, trivial, (stringNe_eq_false _ _).1 hst,
        hcv, hnonce, hev⟩

/-- C14, counterexample: the callback on the session that a login left, with state `s1`, code
verifier `v1` and nonce `n1`, succeeds and redirects to `/user`; the session that it saves has
`id_token`, `access_token` and `claims`, and still has the state, the nonce and the code
verifier. -/
theorem callback_keeps_one_time_values :
    (CallbackHandler (sampleApp "n1") sampleCallback).events =
      [.clientAssertion, .exchange "c1" "v1" "e30.e30.c2ln",
        .save ⟨[("claims", .claims "{}"), ("access_token", .str "e30.e30.YXQ"),
          ("id_token", .str "e30.e30.aWQ"), ("nonce", .str "n1"), ("code-verifier", .str "v1"),
          ("state", .str "s1")]⟩,
        .redirect (.path "/user") 303] ∧
    (⟨[("claims", .claims "{}"), ("access_token", .str "e30.e30.YXQ"),
        ("id_token", .str "e30.e30.aWQ"), ("nonce", .str "n1"), ("code-verifier", .str "v1"),
        ("state", .str "s1")]⟩ : Session).value "state" = some (.str "s1") ∧
    (⟨[("claims", .claims "{}"), ("access_token", .str "e30.e30.YXQ"),
        ("id_token", .str "e30.e30.aWQ"), ("nonce", .str "n1"), ("code-verifier", .str "v1"),
        ("state", .str "s1")]⟩ : Session).value "nonce" = some (.str "n1") ∧
    (⟨[("claims", .claims "{}"), ("access_token", .str "e30.e30.YXQ"),
        ("id_token", .str "e30.e30.aWQ"), ("nonce", .str "n1"), ("code-verifier", .str "v1"),
        ("state", .str "s1")]⟩ : Session).value "code-verifier" = some (.str "v1") := by
  refine ⟨by decide, by decide, by decide, by decide⟩

/-- C14, amended: on every run of `CallbackHandler` that redirects, the redirect goes to
`/user` and the session saved before it contains `id_token`, `access_token` and `claims`; the
one-time values `state`, `nonce` and `code-verifier` that the login stored are still in it,
unchanged. -/
theorem callback_success_session (app : WebApp) (r : CallbackRequest)
    (h : ∃ location code, Event.redirect location code ∈ (CallbackHandler app r).events) :
    ∃ (saved : Session) (codeVerifier assertion raw access nonce claims : String),
      (CallbackHandler app r).events =
        [.clientAssertion, .exchange r.code codeVerifier assertion, .save saved,
          .redirect (.path "/user") 303] ∧
      saved.value "id_token" = some (.str raw) ∧
      saved.value "access_token" = some (.str access) ∧
      saved.value "claims" = some (.claims claims) ∧
      saved.value "state" = some (.str r.state) ∧
      saved.value "state" = r.session.value "state" ∧
      saved.value "nonce" = some (.str nonce) ∧
      saved.value "nonce" = r.session.value "nonce" ∧
      saved.value "code-verifier" = some (.str codeVerifier) ∧
      saved.value "code-verifier" = r.session.value "code-verifier" := by
  obtain ⟨cv, assertion, raw, access, nonce, claims, -, hstate, hcv, hnonce, hev⟩ :=
    CallbackHandler_redirect app r h
  have keep : ∀ k : String, k ≠ "id_token" → k ≠ "access_token" → k ≠ "claims" →
      (((r.session.set "id_token" (.str raw)).set "access_token" (.str access)).set "claims"
        (.claims claims)).value k = r.session.value k := by
    intro k h1 h2 h3
    rw [Session.value_set_ne _ _ _ _ h3, Session.value_set_ne _ _ _ _ h2,
      Session.value_set_ne _ _ _ _ h1]
  have ks := keep "state" (by decide) (by decide) (by decide)
  have kn := keep "nonce" (by decide) (by decide) (by decide)
  have kc := keep "code-verifier" (by decide) (by decide) (by decide)
  refine ⟨_, cv, assertion, raw, access, nonce, claims, hev, ?_, ?_,
    Session.value_set_self _ _ _, ks.trans hstate, ks, kn.trans hnonce, kn, kc.trans hcv, kc⟩
  · rw [Session.value_set_ne _ _ _ _ (by decide), Session.value_set_ne _ _ _ _ (by decide),
      Session.value_set_self]
  · rw [Session.value_set_ne _ _ _ _ (by decide), Session.value_set_self]

/-- Witness of C14: the sample callback. -/
theorem callback_success_session_witness :
    ∃ (saved : Session) (codeVerifier assertion raw access nonce claims : String),
      (CallbackHandler (sampleApp "n1") sampleCallback).events =
        [.clientAssertion, .exchange sampleCallback.code codeVerifier assertion, .save saved,
          .redirect (.path "/user") 303] ∧
      saved.value "id_token" = some (.str raw) ∧
      saved.value "access_token" = some (.str access) ∧
      saved.value "claims" = some (.claims claims) ∧
      saved.value "state" = some (.str sampleCallback.state) ∧
      saved.value "state" = sampleCallback.session.value "state" ∧
      saved.value "nonce" = some (.str nonce) ∧
      saved.value "nonce" = sampleCallback.session.value "nonce" ∧
      saved.value "code-verifier" = some (.str codeVerifier) ∧
      saved.value "code-verifier" = sampleCallback.session.value "code-verifier" :=
  callback_success_session (sampleApp "n1") sampleCallback
    ⟨.path "/user", 303, by decide⟩

/-! ## C15 -/

/-- C15, at the failing input: the read of the random source fails and leaves the buffer as
`make` zeroed it. The function of the web application returns the error; the function of the
machine-to-machine client returns the string of 24 letters `A`, and the client assertion
carries it as `jti`. -/
theorem m2m_random_string_drops_read_error (e : GoError) (signer : Signer)
    (md : clientMetadata) (now1 now2 now3 : Nat) :
    generateRandomString 24 ⟨[], some e⟩ = .error e ∧
    m2mGenerateRandomString 24 ⟨[], some e⟩ = .ok "AAAAAAAAAAAAAAAAAAAAAAAA" ∧
    generateClientAssertionToken signer md ⟨[], some e⟩ now1 now2 now3 =
      (match signer
          (.assertion (m2mClientAssertionClaims md "AAAAAAAAAAAAAAAAAAAAAAAA" now1 now2 now3))
        with
        | .error _ => .ok ""
        | .ok raw => .ok raw) := by
  have h2 : m2mGenerateRandomString 24 ⟨[], some e⟩ = .ok "AAAAAAAAAAAAAAAAAAAAAAAA" := by
    have hb : readInto (byteLength 24) ⟨[], some e⟩ = List.replicate 18 0 := by
      simp [readInto, byteLength]
    simp only [m2mGenerateRandomString, hb]
    decide
  refine ⟨rfl, h2, ?_⟩
  unfold generateClientAssertionToken
  rw [h2]

/-! ## C16 -/

/-- After a failed `auth.GenerateNonce` the login goes on: it answers with the error, then
saves the session with the empty nonce and, when the save and `auth.NewAuthenticator` succeed,
redirects. -/
theorem LoginHandler_nonce_error (app : WebApp) (r : LoginRequest) (state verifier
    challenge : String) (err : GoError) (hs : r.sessionErr = none)
    (h1 : GenerateState r.stateRead = .ok state)
    (h2 : GenerateCodeVerifierAndChallenge r.verifierRead = .ok (verifier, challenge))
    (h3 : GenerateNonce r.nonceRead = .error err) :
    LoginHandler app r =
      loginSaveAndRedirect app r
        (((r.session.set "state" (.str state)).set "code-verifier" (.str verifier)).set "nonce"
          (.str ""))
        state challenge "" [.httpError err.Error 500] := by
  simp [LoginHandler, hs, h1, h2, h3, StatusInternalServerError]

set_option maxRecDepth 100000

/-- C16, at the two failing inputs. When the read of the random source for the nonce fails,
`LoginHandler` answers 500 with the error and then saves a session whose nonce is the empty
string and redirects to the authorization endpoint with the empty `nonce` parameter. When the
signing of the request object fails, it saves the session and redirects with the empty `request`
parameter, and answers no error. -/
theorem login_redirects_after_failure :
    (LoginHandler (sampleApp "n1")
      { sampleLogin with nonceRead := ⟨[], some (.randRead "unexpected EOF")⟩ }).events =
      [.httpError "unexpected EOF" 500,
        .save ⟨[("nonce", .str ""),
          ("code-verifier",
            .str "CAgICAgICAgICAgICAgICAgICAgICAgICAgICAgICAgICAgICAgICAgICAgICAgI"),
          ("state", .str "BwcHBwcHBwcHBwcHBwcHBwcHBwcHBwcHBwcHBwcHBwcHBwcHBwcHBwcHBwcHBwcH")]⟩,
        .redirect
          (.authCodeURL
            ("https://helseid-sts.utvikling.nhn.no/connect/authorize",
              [("response_type", "code"), ("client_id", "golang-web-app"),
                ("redirect_uri", "http://localhost:44123/callback"),
                ("scope", "openid profile norsk-helsenett:golang-sample-api/foo"),
                ("state", "BwcHBwcHBwcHBwcHBwcHBwcHBwcHBwcHBwcHBwcHBwcHBwcHBwcHBwcHBwcHBwcH"),
                ("code_challenge", "zoOZ0LFfoUKxaUuC6HIs1AxN7mAhTPbBVvwKpGECrqA"),
                ("code_challenge_method", "S256"), ("nonce", ""),
                ("request", "e30.e30.c2ln")]))
          307] ∧
    (LoginHandler
      { sampleApp "n1" with
        jwtSigner := some (fun _ => .error (.sign "rsa: message too long for RSA key size")) }
      sampleLogin).events =
      [.save ⟨[("nonce",
            .str "CQkJCQkJCQkJCQkJCQkJCQkJCQkJCQkJCQkJCQkJCQkJCQkJCQkJCQkJCQkJCQkJ"),
          ("code-verifier",
            .str "CAgICAgICAgICAgICAgICAgICAgICAgICAgICAgICAgICAgICAgICAgICAgICAgI"),
          ("state", .str "BwcHBwcHBwcHBwcHBwcHBwcHBwcHBwcHBwcHBwcHBwcHBwcHBwcHBwcHBwcHBwcH")]⟩,
        .redirect
          (.authCodeURL
            ("https://helseid-sts.utvikling.nhn.no/connect/authorize",
              [("response_type", "code"), ("client_id", "golang-web-app"),
                ("redirect_uri", "http://localhost:44123/callback"),
                ("scope", "openid profile norsk-helsenett:golang-sample-api/foo"),
                ("state", "BwcHBwcHBwcHBwcHBwcHBwcHBwcHBwcHBwcHBwcHBwcHBwcHBwcHBwcHBwcHBwcH"),
                ("code_challenge", "zoOZ0LFfoUKxaUuC6HIs1AxN7mAhTPbBVvwKpGECrqA"),
                ("code_challenge_method", "S256"),
                ("nonce", "CQkJCQkJCQkJCQkJCQkJCQkJCQkJCQkJCQkJCQkJCQkJCQkJCQkJCQkJCQkJCQkJ"),
                ("request", "")]))
          307] := by
  refine ⟨by decide, by decide⟩

set_option maxRecDepth 512

/-! ## C17 -/

theorem keySetLoop_eq (keySet : List JSONWebKey) (raws : List RawKey) :
    keySetLoop keySet raws = keySet ++ raws.map (·.key) := by
  induction raws generalizing keySet with
  | nil => simp [keySetLoop]
  | cons r rest ih => simp [keySetLoop, ih]

theorem length_filter_add_not {α : Type} (p : α → Bool) (l : List α) :
    l.length = (l.filter p).length + (l.filter (fun a => !p a)).length := by
  induction l with
  | nil => rfl
  | cons a l ih =>
    cases hp : p a <;> simp [List.filter_cons, hp] <;> omega

/-- C17, counterexample: of the three elements of the document the second fails to decode and
leaves the zero value of `jose.JSONWebKey`. The refresh returns, and the cached key set has
three entries, the second of which is that zero value. -/
theorem malformed_key_kept_in_key_set :
    RefreshHelseidMetadata (.ok (.ok { sampleMetadata with Jwks := ⟨[]⟩ }))
        (fun _ => .ok (.ok
          [⟨⟨some 1, "k1"⟩, none⟩,
            ⟨⟨none, ""⟩, some (.unmarshal "square/go-jose: unknown json web key type 'XYZ'")⟩,
            ⟨⟨some 2, "k2"⟩, none⟩])) =
      .returned
        { sampleMetadata with Jwks := ⟨[⟨some 1, "k1"⟩, ⟨none, ""⟩, ⟨some 2, "k2"⟩]⟩ } ∧
    ([⟨some 1, "k1"⟩, ⟨none, ""⟩, ⟨some 2, "k2"⟩] : List JSONWebKey).length ≠ 3 - 1 ∧
    (⟨none, ""⟩ : JSONWebKey) ∈
      ([⟨some 1, "k1"⟩, ⟨none, ""⟩, ⟨some 2, "k2"⟩] : List JSONWebKey) := by
  refine ⟨rfl, by decide, by decide⟩

/-- C17, amended: when the JWKS document has `k` elements of which `m` fail to decode, the
refresh does not abort and the cached key set has exactly `k` entries in the order of the
document: for each element what `UnmarshalJSON` left in the key, which is the decoded key for
the `k - m` well-formed elements; an element that failed is not skipped. -/
theorem refresh_keeps_every_entry
    (discovery : Except GoError (Except GoError authorizationServerMetadata))
    (jwks : String → Except GoError (Except GoError (List RawKey)))
    (md : authorizationServerMetadata) (raws : List RawKey)
    (hd : discovery = .ok (.ok md)) (hj : jwks md.Jwks_uri = .ok (.ok raws)) :
    ∃ cached : authorizationServerMetadata,
      RefreshHelseidMetadata discovery jwks = .returned cached ∧
      cached.Issuer = md.Issuer ∧ cached.Jwks_uri = md.Jwks_uri ∧
      cached.Jwks.Keys = raws.map (·.key) ∧
      cached.Jwks.Keys.length = raws.length ∧
      cached.Jwks.Keys.length =
        (raws.filter (fun r => r.err = none)).length +
          (raws.filter (fun r => r.err ≠ none)).length ∧
      List.Sublist ((raws.filter (fun r => r.err = none)).map (·.key)) cached.Jwks.Keys := by
  refine ⟨{ md with Jwks := ⟨raws.map (·.key)⟩ }, ?_, rfl, rfl, rfl, by simp, ?_, ?_⟩
  · simp [RefreshHelseidMetadata, hd, hj, keySetLoop_eq]
  · have h := length_filter_add_not (fun r : RawKey => decide (r.err = none)) raws
    simpa using h
  · exact List.Sublist.map _ (List.filter_sublist _)

/-- Witness of C17: a document of two elements, the second of which fails to decode. -/
theorem refresh_keeps_every_entry_witness :
    ∃ cached : authorizationServerMetadata,
      RefreshHelseidMetadata (.ok (.ok { sampleMetadata with Jwks := ⟨[]⟩ }))
        (fun _ => .ok (.ok [⟨⟨some 1, "k1"⟩, none⟩, ⟨⟨none, ""⟩, some (.unmarshal "bad")⟩])) =
        .returned cached ∧
      cached.Issuer = sampleMetadata.Issuer ∧ cached.Jwks_uri = sampleMetadata.Jwks_uri ∧
      cached.Jwks.Keys =
        ([⟨⟨some 1, "k1"⟩, none⟩, ⟨⟨none, ""⟩, some (.unmarshal "bad")⟩] : List RawKey).map
          (·.key) ∧
      cached.Jwks.Keys.length =
        ([⟨⟨some 1, "k1"⟩, none⟩, ⟨⟨none, ""⟩, some (.unmarshal "bad")⟩] : List RawKey).length ∧
      cached.Jwks.Keys.length =
        (([⟨⟨some 1, "k1"⟩, none⟩, ⟨⟨none, ""⟩, some (.unmarshal "bad")⟩] : List RawKey).filter
          (fun r => r.err = none)).length +
        (([⟨⟨some 1, "k1"⟩, none⟩, ⟨⟨none, ""⟩, some (.unmarshal "bad")⟩] : List RawKey).filter
          (fun r => r.err ≠ none)).length ∧
      List.Sublist
        ((([⟨⟨some 1, "k1"⟩, none⟩, ⟨⟨none, ""⟩, some (.unmarshal "bad")⟩] : List RawKey).filter
          (fun r => r.err = none)).map (·.key)) cached.Jwks.Keys :=
  refresh_keeps_every_entry (.ok (.ok { sampleMetadata with Jwks := ⟨[]⟩ }))
    (fun _ => .ok (.ok [⟨⟨some 1, "k1"⟩, none⟩, ⟨⟨none, ""⟩, some (.unmarshal "bad")⟩]))
    { sampleMetadata with Jwks := ⟨[]⟩ }
    [⟨⟨some 1, "k1"⟩, none⟩, ⟨⟨none, ""⟩, some (.unmarshal "bad")⟩] rfl rfl

/-! ## Lemmas on the injectivity of the encoder -/

theorem or_shift_eq_add (a b c : Nat) (hb : b < 256) (hc : c < 256) :
    a <<< 16 ||| b <<< 8 ||| c = a * 65536 + b * 256 + c := by
  have h1 : a <<< 16 ||| b <<< 8 = 2 ^ 8 * (a * 256 + b) := by
    have hlt : b <<< 8 < 2 ^ 16 := by
      rw [Nat.shiftLeft_eq]; omega
    have h := Nat.mul_add_lt_is_or hlt a
    rw [Nat.shiftLeft_eq a 16, Nat.mul_comm a (2 ^ 16), ← h, Nat.shiftLeft_eq]
    omega
  have hc2 : c < 2 ^ 8 := by omega
  rw [h1, ← Nat.mul_add_lt_is_or hc2]
  omega

theorem sextet_eq (x k : Nat) : x >>> k &&& 0x3F = x / 2 ^ k % 64 := by
  have h := Nat.and_pow_two_sub_one_eq_mod (x >>> k) 6
  rw [Nat.shiftRight_eq_div_pow] at h
  rw [Nat.shiftRight_eq_div_pow]
  exact h

theorem encodeURL_nodup : encodeURL.data.Nodup := by decide

theorem encodeURLAt_inj (i j : Nat) (hi : i < 64) (hj : j < 64)
    (h : encodeURLAt i = encodeURLAt j) : i = j := by
  have hl : encodeURL.data.length = 64 := by decide
  unfold encodeURLAt at h
  rw [List.getD_eq_getElem _ _ (by omega), List.getD_eq_getElem _ _ (by omega)] at h
  exact (List.Nodup.getElem_inj_iff encodeURL_nodup).1 h

theorem group_inj (a b c a2 b2 c2 : Byte)
    (h1 : encodeURLAt ((a.val <<< 16 ||| b.val <<< 8 ||| c.val) >>> 18 &&& 0x3F) =
      encodeURLAt ((a2.val <<< 16 ||| b2.val <<< 8 ||| c2.val) >>> 18 &&& 0x3F))
    (h2 : encodeURLAt ((a.val <<< 16 ||| b.val <<< 8 ||| c.val) >>> 12 &&& 0x3F) =
      encodeURLAt ((a2.val <<< 16 ||| b2.val <<< 8 ||| c2.val) >>> 12 &&& 0x3F))
    (h3 : encodeURLAt ((a.val <<< 16 ||| b.val <<< 8 ||| c.val) >>> 6 &&& 0x3F) =
      encodeURLAt ((a2.val <<< 16 ||| b2.val <<< 8 ||| c2.val) >>> 6 &&& 0x3F))
    (h4 : encodeURLAt ((a.val <<< 16 ||| b.val <<< 8 ||| c.val) &&& 0x3F) =
      encodeURLAt ((a2.val <<< 16 ||| b2.val <<< 8 ||| c2.val) &&& 0x3F)) :
    a = a2 ∧ b = b2 ∧ c = c2 := by
  have e1 := encodeURLAt_inj _ _ (and_mask_lt _) (and_mask_lt _) h1
  have e2 := encodeURLAt_inj _ _ (and_mask_lt _) (and_mask_lt _) h2
  have e3 := encodeURLAt_inj _ _ (and_mask_lt _) (and_mask_lt _) h3
  have e4 := encodeURLAt_inj _ _ (and_mask_lt _) (and_mask_lt _) h4
  have e40 : ∀ x : Nat, x &&& 0x3F = x / 2 ^ 0 % 64 := fun x => by
    have := sextet_eq x 0
    simpa using this
  rw [sextet_eq, sextet_eq, or_shift_eq_add _ _ _ b.isLt c.isLt,
    or_shift_eq_add _ _ _ b2.isLt c2.isLt] at e1 e2 e3
  rw [e40, e40, or_shift_eq_add _ _ _ b.isLt c.isLt,
    or_shift_eq_add _ _ _ b2.isLt c2.isLt] at e4
  have ha := a.isLt
  have hb := b.isLt
  have hc := c.isLt
  have ha2 := a2.isLt
  have hb2 := b2.isLt
  have hc2 := c2.isLt
  refine ⟨Fin.ext ?_, Fin.ext ?_, Fin.ext ?_⟩ <;> omega

/-- On byte strings of one length that is a multiple of three the encoder is injective. -/
theorem rawURLEncode_inj (m : Nat) (l1 l2 : List Byte) (h1 : l1.length = 3 * m)
    (h2 : l2.length = 3 * m) (h : rawURLEncode l1 = rawURLEncode l2) : l1 = l2 := by
  induction m generalizing l1 l2 with
  | zero =>
    have e1 : l1 = [] := List.length_eq_zero.1 (by omega)
    have e2 : l2 = [] := List.length_eq_zero.1 (by omega)
    rw [e1, e2]
  | succ m ih =>
    match l1, l2, h1, h2, h with
    | a :: b :: c :: r1, a2 :: b2 :: c2 :: r2, h1, h2, h =>
      simp only [rawURLEncode, List.cons.injEq] at h
      obtain ⟨g1, g2, g3, g4, hr⟩ := h
      obtain ⟨ea, eb, ec⟩ := group_inj a b c a2 b2 c2 g1 g2 g3 g4
      have hr1 : r1.length = 3 * m := by simp only [List.length_cons] at h1; omega
      have hr2 : r2.length = 3 * m := by simp only [List.length_cons] at h2; omega
      rw [ea, eb, ec, ih r1 r2 hr1 hr2 hr]
    | [], _, h1, _, _ => simp at h1
    | [_], _, h1, _, _ => simp at h1; omega
    | [_, _], _, h1, _, _ => simp at h1; omega
    | _ :: _ :: _ :: _, [], _, h2, _ => simp at h2
    | _ :: _ :: _ :: _, [_], _, h2, _ => simp at h2; omega
    | _ :: _ :: _ :: _, [_, _], _, h2, _ => simp at h2; omega

theorem readInto_full (k : Nat) (b : List Byte) (e : Option GoError) (h : b.length = k) :
    readInto k ⟨b, e⟩ = b := by
  simp [readInto, ← h]

theorem generateRandomString_full (n : Nat) (hn : n % 4 = 0) (r : RandRead) :
    sliceTo (encodeToString (readInto (byteLength n) r)) n =
      .ok (encodeToString (readInto (byteLength n) r)) := by
  have hl : (rawURLEncode (readInto (byteLength n) r)).length = n := by
    rw [length_rawURLEncode, length_readInto]
    unfold byteLength
    omega
  rw [sliceTo_encode_readInto]
  have ht : (rawURLEncode (readInto (byteLength n) r)).take n =
      rawURLEncode (readInto (byteLength n) r) := List.take_of_length_le (by omega)
  rw [ht]
  rfl

/-! ## C18 -/

/-- C18: for every length `n` that is a multiple of 4, among them the lengths 24 and 64 in use,
`generateRandomString(n)` of both programs reads `3n/4` bytes, their encoding has exactly
`n` characters, the string returned is the whole encoding, and two different sequences of
`3n/4` bytes give two different strings. -/
theorem generateRandomString_injective (n : Nat) (hn : n % 4 = 0) (b1 b2 : List Byte)
    (h1 : b1.length = byteLength n) (h2 : b2.length = byteLength n) :
    (24 % 4 = 0 ∧ stateLength % 4 = 0 ∧ nonceLength % 4 = 0 ∧ codeVerifierLength % 4 = 0) ∧
    4 * byteLength n = 3 * n ∧
    (encodeToString b1).length = n ∧
    generateRandomString n ⟨b1, none⟩ = .ok (encodeToString b1) ∧
    m2mGenerateRandomString n ⟨b1, none⟩ = .ok (encodeToString b1) ∧
    (generateRandomString n ⟨b1, none⟩ = generateRandomString n ⟨b2, none⟩ → b1 = b2) ∧
    (m2mGenerateRandomString n ⟨b1, none⟩ = m2mGenerateRandomString n ⟨b2, none⟩ → b1 = b2) := by
  have hb : 4 * byteLength n = 3 * n := by unfold byteLength; omega
  have hl : (encodeToString b1).length = n := by
    simp only [encodeToString, String.length, length_rawURLEncode, h1]
    omega
  have hg : ∀ b : List Byte, b.length = byteLength n →
      generateRandomString n ⟨b, none⟩ = .ok (encodeToString b) ∧
      m2mGenerateRandomString n ⟨b, none⟩ = .ok (encodeToString b) := by
    intro b hblen
    have hf := generateRandomString_full n hn ⟨b, none⟩
    rw [readInto_full _ b none hblen] at hf
    constructor
    · simp only [generateRandomString, readInto_full _ b none hblen]
      exact hf
    · simp only [m2mGenerateRandomString, readInto_full _ b none hblen]
      exact hf
  have hinj : encodeToString b1 = encodeToString b2 → b1 = b2 := by
    intro h
    have hk : byteLength n = 3 * (n / 4) := by omega
    have hd : rawURLEncode b1 = rawURLEncode b2 := congrArg String.data h
    exact rawURLEncode_inj (n / 4) b1 b2 (by omega) (by omega) hd
  refine ⟨by decide, hb, hl, (hg b1 h1).1, (hg b1 h1).2, ?_, ?_⟩
  · intro h
    rw [(hg b1 h1).1, (hg b2 h2).1] at h
    exact hinj (Result.ok.inj h)
  · intro h
    rw [(hg b1 h1).2, (hg b2 h2).2] at h
    exact hinj (Result.ok.inj h)

/-- Witness of C18: a sequence of three bytes for a string of four characters. -/
theorem generateRandomString_injective_witness :
    (encodeToString ([1, 2, 3] : List Byte)).length = 4 ∧
    generateRandomString 4 ⟨[1, 2, 3], none⟩ = .ok (encodeToString [1, 2, 3]) ∧
    m2mGenerateRandomString 4 ⟨[1, 2, 3], none⟩ = .ok (encodeToString [1, 2, 3]) :=
  ⟨(generateRandomString_injective 4 (by decide) [1, 2, 3] [1, 2, 4] (by decide)
      (by decide)).2.2.1,
    (generateRandomString_injective 4 (by decide) [1, 2, 3] [1, 2, 4] (by decide)
      (by decide)).2.2.2.1,
    (generateRandomString_injective 4 (by decide) [1, 2, 3] [1, 2, 4] (by decide)
      (by decide)).2.2.2.2.1⟩

end HelseId
